import Mathlib

/-!
# Verification of the wakili-aquickone draft / workflow core

Shallow embedding of the state and operations of
`backend/api/services/drafting_service.py`,
`backend/api/services/workflow_service.py`,
`backend/entity_mapper/dynamic_schema_loader.py` and
`backend/entity_mapper/dynamic_form_generator.py`.

Modelling conventions:
* Python `datetime.now()` values are modelled as abstract `Nat` timestamps
  supplied as explicit `now` arguments to each operation.
* `uuid4()` fresh ids are supplied as explicit arguments.
* Python dicts keyed by fixed string keys are modelled as Lean structures;
  a key that a producer may omit while a consumer probes with `.get` is an
  `Option` field (`none` = key absent).
* The in-memory storage dicts `DRAFT_STORAGE` / `WORKFLOW_STORAGE` are
  insertion-ordered association lists, with dict assignment modelled by
  `Store.set` (overwrite in place or append).
* Calls out of the core (LLM agents, the entity mapper, chat-history
  loading) are environment parameters recorded in `DraftEnv` / `WfEnv`;
  the exception-free execution path is modelled (the environment functions
  are total).
-/

namespace Wakili

/-- `updateFirst p f l` rewrites the first element of `l` satisfying `p`
with `f`, mirroring the Python idiom of mutating the object returned by
`next((x for x in l if p(x)), None)`. -/
def updateFirst (p : α → Bool) (f : α → α) : List α → List α
  | [] => []
  | x :: xs => if p x then f x :: xs else x :: updateFirst p f xs

/-- `updateIdx l i f` rewrites the element at position `i` (Python
`l[i] = f(l[i])`); out-of-range indices leave the list unchanged. -/
def updateIdx (l : List α) (i : Nat) (f : α → α) : List α :=
  match l, i with
  | [], _ => []
  | x :: xs, 0 => f x :: xs
  | x :: xs, i + 1 => x :: updateIdx xs i f

namespace Store

/-- Insertion-ordered dict assignment `d[k] = v`: overwrite the first
binding of `k` in place, or append a fresh binding. -/
def set (st : List (String × α)) (k : String) (v : α) : List (String × α) :=
  match st with
  | [] => [(k, v)]
  | (k', v') :: rest => if k' = k then (k, v) :: rest else (k', v') :: set rest k v

/-- Dict lookup `d.get(k)`. -/
def get? (st : List (String × α)) (k : String) : Option α :=
  match st with
  | [] => none
  | (k', v') :: rest => if k' = k then some v' else get? rest k

/-- Dict values `d.values()`. -/
def values (st : List (String × α)) : List α := st.map Prod.snd

/-- Dict deletion `del d[k]` (first binding). -/
def erase (st : List (String × α)) (k : String) : List (String × α) :=
  match st with
  | [] => []
  | (k', v') :: rest => if k' = k then rest else (k', v') :: erase rest k

/-- Dict merge `d.update(u)`: assign every binding of `u` into `d` in order. -/
def setAll (st u : List (String × α)) : List (String × α) :=
  u.foldl (fun acc kv => set acc kv.1 kv.2) st

end Store

/-- One chat message as handed to the analyzers: the `{'role': ..., 'content': ...}`
dicts built by `_load_chat_messages` / `_parse_chat_content`. -/
structure Msg where
  role : String
  content : String
deriving DecidableEq, Repr

/-- Python `str.lower()` (ASCII; adequate for the keyword sets involved). -/
def pyLower (s : String) : String := String.mk (s.data.map Char.toLower)

/-- Python `str.startswith(prefix)`. -/
def pyStartsWith (s pre : String) : Bool := pre.data.isPrefixOf s.data

/-- Python `c in s` for a single character. -/
def pyContainsChar (s : String) (c : Char) : Bool := s.data.contains c

/-- Python `str.strip()` (whitespace). -/
def pyStrip (s : String) : String :=
  String.mk (((s.data.dropWhile Char.isWhitespace).reverse.dropWhile Char.isWhitespace).reverse)

/-- Python `str.replace(old, new)` for single-character patterns (the only
shape the source uses: `replace('_', ' ')`). -/
def pyReplaceChar (s : String) (old new : Char) : String :=
  String.mk (s.data.map (fun c => if c = old then new else c))

def splitCharAux (c : Char) : List Char → List Char → List (List Char)
  | [], acc => [acc.reverse]
  | x :: xs, acc =>
    if x = c then acc.reverse :: splitCharAux c xs []
    else splitCharAux c xs (x :: acc)

/-- Python `str.split(sep)` for a single-character separator. -/
def pySplitChar (s : String) (c : Char) : List String :=
  (splitCharAux c s.data []).map String.mk

/-- Python `s.split(c, 1)[1]`: everything after the first occurrence of `c`
(empty when `c` does not occur; the source only evaluates this under an
`in`-guard or on names that contain the separator). -/
def afterFirstChar (s : String) (c : Char) : String :=
  String.mk ((s.data.dropWhile (fun x => x ≠ c)).drop 1)

def pyTitleAux : Bool → List Char → List Char
  | _, [] => []
  | prevAlpha, c :: cs =>
    if c.isAlpha then
      (if prevAlpha then c.toLower else c.toUpper) :: pyTitleAux true cs
    else c :: pyTitleAux false cs

/-- Python `str.title()`: uppercase each letter that starts a letter run,
lowercase the rest. -/
def pyTitle (s : String) : String := String.mk (pyTitleAux false s.data)

/-- `DraftingService._parse_chat_content`: parse raw chat text into
role/content messages. -/
def parseChatContent (chat_content : String) : List Msg :=
  let flush := fun (role : Option String) (content : List String) (msgs : List Msg) =>
    match role with
    | some r => if content ≠ [] then msgs ++ [⟨r, pyStrip (String.intercalate "\n" content)⟩] else msgs
    | none => msgs
  let rec go : List String → Option String → List String → List Msg → List Msg
    | [], role, content, msgs => flush role content msgs
    | line :: rest, role, content, msgs =>
      let line := pyStrip line
      if line = "" then go rest role content msgs
      else if pyStartsWith (pyLower line) "user:" || pyStartsWith (pyLower line) "human:"
           || pyStartsWith (pyLower line) "client:" then
        go rest (some "user")
          [if pyContainsChar line ':' then pyStrip (afterFirstChar line ':') else ""]
          (flush role content msgs)
      else if pyStartsWith (pyLower line) "assistant:" || pyStartsWith (pyLower line) "ai:"
           || pyStartsWith (pyLower line) "bot:" || pyStartsWith (pyLower line) "wakili:" then
        go rest (some "assistant")
          [if pyContainsChar line ':' then pyStrip (afterFirstChar line ':') else ""]
          (flush role content msgs)
      else
        match role with
        | some _ => go rest role (content ++ [line]) msgs
        | none => go rest role content msgs
  go (pySplitChar (pyStrip chat_content) '\n') none [] []

/-- `_extract_conversation_text`. -/
def extractConversationText (msgs : List Msg) : String :=
  String.intercalate "\n" (msgs.map (·.content))

/-! ## Drafting service data model (`drafting_service.py`) -/

/-- The metadata dict built by `_generate_draft_content` for draft content.
`confidence` (a Python float, 0.8 on success) is carried in tenths so the
model stays in exact arithmetic. -/
structure ContentMeta where
  generation_time : Nat
  confidence_tenths : Nat
  sources : List String
  template_used : String
  customizations : List String
deriving DecidableEq, Repr

structure ContentSection where
  title : String
  content : String
deriving DecidableEq, Repr

/-- The content dict produced by `_generate_draft_content` and stored in a
`DraftVersion` (`document_type` / `content` / `sections` / `metadata`). -/
structure DraftContent where
  document_type : String
  content : String
  sections : List ContentSection
  metadata : ContentMeta
deriving DecidableEq, Repr

/-- The context dict assembled by `regenerate_draft_version` (also accepted
from callers of `generate_draft_version`). -/
structure GenContext where
  previous_version : Option DraftContent
  user_feedback : Option String
  rejection_reason : Option String
  modifications : List (String × String)
deriving DecidableEq, Repr

/-- `DraftVersion.metadata` as initialised by `DraftVersion.__init__`. -/
structure VersionMeta where
  sources : List String
  confidence_tenths : Nat
  generation_time : Nat
  template_used : Option String
  customizations : List String
deriving DecidableEq, Repr

structure DraftVersion where
  id : String
  content : DraftContent
  created_by : String
  created_at : Nat
  status : String
  user_feedback : Option String
  approved_by : Option String
  approved_at : Option Nat
  rejected_reason : Option String
  modifications : List (String × String)
  metadata : VersionMeta
deriving DecidableEq, Repr

/-- `DraftVersion.__init__(version_id, content, created_by)` at time `now`. -/
def DraftVersion.init (version_id : String) (content : DraftContent)
    (created_by : String) (now : Nat) : DraftVersion where
  id := version_id
  content := content
  created_by := created_by
  created_at := now
  status := "pending"
  user_feedback := none
  approved_by := none
  approved_at := none
  rejected_reason := none
  modifications := []
  metadata := ⟨[], 0, now, none, []⟩

/-- The camelCase dict written by `DraftVersion.to_dict` (and read back by
`DraftingService._dict_to_draft`). -/
structure VersionRecord where
  id : String
  content : DraftContent
  createdBy : String
  createdAt : Nat
  status : String
  userFeedback : Option String
  approvedBy : Option String
  approvedAt : Option Nat
  rejectedReason : Option String
  modifications : List (String × String)
  metadata : VersionMeta
deriving DecidableEq, Repr

def DraftVersion.toDict (v : DraftVersion) : VersionRecord where
  id := v.id
  content := v.content
  createdBy := v.created_by
  createdAt := v.created_at
  status := v.status
  userFeedback := v.user_feedback
  approvedBy := v.approved_by
  approvedAt := v.approved_at
  rejectedReason := v.rejected_reason
  modifications := v.modifications
  metadata := v.metadata

/-- The version part of `_dict_to_draft`. -/
def dictToVersion (r : VersionRecord) : DraftVersion where
  id := r.id
  content := r.content
  created_by := r.createdBy
  created_at := r.createdAt
  status := r.status
  user_feedback := r.userFeedback
  approved_by := r.approvedBy
  approved_at := r.approvedAt
  rejected_reason := r.rejectedReason
  modifications := r.modifications
  metadata := r.metadata

/-- The draft `settings` dict (`auto_approve`, `require_user_approval`,
`max_versions`, `allow_modifications`). -/
structure DraftSettings where
  auto_approve : Bool
  require_user_approval : Bool
  max_versions : Nat
  allow_modifications : Bool
deriving DecidableEq, Repr

def defaultDraftSettings : DraftSettings := ⟨true, false, 10, true⟩

structure DocumentDraft where
  id : String
  user_id : String
  chat_id : String
  document_type : String
  title : String
  status : String
  current_version : Nat
  versions : List DraftVersion
  created_at : Nat
  updated_at : Nat
  estimated_completion : Option Nat
  workflow_id : Option String
  settings : DraftSettings
  /-- The `original_content` attribute exists only on content-based drafts;
  `none` models the attribute being absent. -/
  original_content : Option String
deriving DecidableEq, Repr

/-- `DocumentDraft.__init__(draft_id, user_id, chat_id, document_type)` at
time `now`. -/
def DocumentDraft.init (draft_id user_id chat_id document_type : String)
    (now : Nat) : DocumentDraft where
  id := draft_id
  user_id := user_id
  chat_id := chat_id
  document_type := document_type
  title := pyTitle (pyReplaceChar document_type '_' ' ') ++ " Draft"
  status := "in_progress"
  current_version := 1
  versions := []
  created_at := now
  updated_at := now
  estimated_completion := none
  workflow_id := none
  settings := defaultDraftSettings
  original_content := none

/-- The camelCase dict written by `DocumentDraft.to_dict`. -/
structure DraftRecord where
  id : String
  userId : String
  chatId : String
  documentType : String
  title : String
  status : String
  currentVersion : Nat
  totalVersions : Nat
  versions : List VersionRecord
  createdAt : Nat
  updatedAt : Nat
  estimatedCompletion : Option Nat
  workflowId : Option String
  settings : DraftSettings
  /-- Written only when the draft has truthy `original_content`. -/
  originalContent : Option String
deriving DecidableEq, Repr

/-- The truthiness filter `to_dict` applies to `original_content`: the key
is written only when the attribute exists and is non-empty. -/
def truthyContent : Option String → Option String
  | some s => if s = "" then none else some s
  | none => none

def DocumentDraft.toDict (d : DocumentDraft) : DraftRecord where
  id := d.id
  userId := d.user_id
  chatId := d.chat_id
  documentType := d.document_type
  title := d.title
  status := d.status
  currentVersion := d.current_version
  totalVersions := d.versions.length
  versions := d.versions.map DraftVersion.toDict
  createdAt := d.created_at
  updatedAt := d.updated_at
  estimatedCompletion := d.estimated_completion
  workflowId := d.workflow_id
  settings := d.settings
  originalContent := truthyContent d.original_content

/-- `DraftingService._dict_to_draft`. -/
def dictToDraft (r : DraftRecord) : DocumentDraft where
  id := r.id
  user_id := r.userId
  chat_id := r.chatId
  document_type := r.documentType
  title := r.title
  status := r.status
  current_version := r.currentVersion
  versions := r.versions.map dictToVersion
  created_at := r.createdAt
  updated_at := r.updatedAt
  estimated_completion := r.estimatedCompletion
  workflow_id := r.workflowId
  settings := r.settings
  original_content := r.originalContent

/-! ## Drafting service operations -/

/-- `DRAFT_STORAGE`: draft id ↦ serialized draft dict. -/
abbrev DraftStorage := List (String × DraftRecord)

/-- The opaque result of `ConversationAnalyzer.analyze_conversation` as the
drafting service consumes it: the `document_type` key (possibly absent) plus
the rest of the analyzer's dict, passed through untouched. -/
structure AnalysisResult where
  document_type : Option String
  raw : String
deriving DecidableEq, Repr

/-- The `drafting_context` dict handed to `DraftingAgent.draft_document`. -/
structure DraftingContext where
  conversation_text : String
  document_type : String
  analysis_result : AnalysisResult
  user_context : Option GenContext
deriving DecidableEq, Repr

/-- External effects of the drafting service: chat-history loading (disk),
the conversation analyzer and the drafting agent (both LLM-backed). -/
structure DraftEnv where
  loadChat : String → String → List Msg
  analyze : List Msg → AnalysisResult
  draftAgent : String → DraftingContext → String

namespace DraftingService

/-- `DraftingService.get_draft`. -/
def get_draft (st : DraftStorage) (draft_id : String) : Option DocumentDraft :=
  (Store.get? st draft_id).map dictToDraft

/-- `DraftingService.create_draft_from_chat` (the exception-free path;
`document_type = none` or `some ""` is the Python falsy case that triggers
conversation analysis). -/
def create_draft_from_chat (env : DraftEnv) (st : DraftStorage)
    (user_id chat_id : String) (document_type : Option String)
    (draft_id : String) (now : Nat) : DocumentDraft × DraftStorage :=
  let dt :=
    match document_type with
    | some t =>
      if t = "" then
        let msgs := env.loadChat user_id chat_id
        if msgs = [] then "custom_document"
        else ((env.analyze msgs).document_type).getD "custom_document"
      else t
    | none =>
      let msgs := env.loadChat user_id chat_id
      if msgs = [] then "custom_document"
      else ((env.analyze msgs).document_type).getD "custom_document"
  let draft := DocumentDraft.init draft_id user_id chat_id dt now
  (draft, Store.set st draft_id draft.toDict)

/-- Chat context selection inside `generate_draft_version`: content-based
drafts re-parse their stored `original_content`, chat-based drafts load the
chat history. -/
def draftChatMessages (env : DraftEnv) (user_id : String)
    (draft : DocumentDraft) : List Msg :=
  match draft.original_content with
  | some c => if c ≠ "" then parseChatContent c else env.loadChat user_id draft.chat_id
  | none => env.loadChat user_id draft.chat_id

/-- `DraftingService._generate_draft_content` (exception-free path). -/
def generateDraftContent (env : DraftEnv) (chat_messages : List Msg)
    (document_type : String) (context : Option GenContext) (now : Nat) : DraftContent :=
  let conversation_text := extractConversationText chat_messages
  let analysis_result := env.analyze chat_messages
  let drafting_context : DraftingContext :=
    ⟨conversation_text, document_type, analysis_result, context⟩
  let draft_result := env.draftAgent document_type drafting_context
  { document_type := document_type
    content := draft_result
    sections := [⟨pyTitle (pyReplaceChar document_type '_' ' '), draft_result⟩]
    metadata := ⟨now, 8, [], document_type, []⟩ }

/-- `DraftingService.generate_draft_version`. -/
def generate_draft_version (env : DraftEnv) (st : DraftStorage)
    (draft_id user_id : String) (context : Option GenContext)
    (fresh_id : String) (now : Nat) : Option DraftVersion × DraftStorage :=
  match get_draft st draft_id with
  | none => (none, st)
  | some draft =>
    if draft.user_id ≠ user_id then (none, st)
    else
      let chat_messages := draftChatMessages env user_id draft
      let draft_content := generateDraftContent env chat_messages draft.document_type context now
      let version := DraftVersion.init fresh_id draft_content user_id now
      let versions' := draft.versions ++ [version]
      let draft' := { draft with
        versions := versions'
        current_version := versions'.length
        updated_at := now }
      (some version, Store.set st draft_id draft'.toDict)

/-- `DraftingService.approve_draft_version`. -/
def approve_draft_version (st : DraftStorage) (draft_id version_id user_id : String)
    (feedback : Option String) (now : Nat) : Bool × DraftStorage :=
  match get_draft st draft_id with
  | none => (false, st)
  | some draft =>
    if draft.user_id ≠ user_id then (false, st)
    else
      match draft.versions.find? (fun v => v.id = version_id) with
      | none => (false, st)
      | some version =>
        if version.status ≠ "pending" then (false, st)
        else
          let draft' := { draft with
            versions := updateFirst (fun v => v.id = version_id)
              (fun v => { v with
                status := "approved"
                approved_by := some user_id
                approved_at := some now
                user_feedback := feedback }) draft.versions
            status := "completed"
            updated_at := now }
          (true, Store.set st draft_id draft'.toDict)

/-- `DraftingService.reject_draft_version`. -/
def reject_draft_version (st : DraftStorage) (draft_id version_id user_id : String)
    (reason : String) (feedback : Option String) (now : Nat) : Bool × DraftStorage :=
  match get_draft st draft_id with
  | none => (false, st)
  | some draft =>
    if draft.user_id ≠ user_id then (false, st)
    else
      match draft.versions.find? (fun v => v.id = version_id) with
      | none => (false, st)
      | some version =>
        if version.status ≠ "pending" then (false, st)
        else
          let draft' := { draft with
            versions := updateFirst (fun v => v.id = version_id)
              (fun v => { v with
                status := "rejected"
                rejected_reason := some reason
                user_feedback := feedback }) draft.versions
            status := "in_progress"
            updated_at := now }
          (true, Store.set st draft_id draft'.toDict)

/-- `DraftingService.modify_draft_version`. -/
def modify_draft_version (st : DraftStorage) (draft_id version_id user_id : String)
    (modifications : List (String × String)) (now : Nat) : Bool × DraftStorage :=
  match get_draft st draft_id with
  | none => (false, st)
  | some draft =>
    if draft.user_id ≠ user_id then (false, st)
    else
      match draft.versions.find? (fun v => v.id = version_id) with
      | none => (false, st)
      | some _ =>
        let draft' := { draft with
          versions := updateFirst (fun v => v.id = version_id)
            (fun v => { v with
              modifications := Store.setAll v.modifications modifications
              status := "modified"
              user_feedback := some ((Store.get? modifications "feedback").getD "") })
            draft.versions
          updated_at := now }
        (true, Store.set st draft_id draft'.toDict)

/-- `DraftingService.regenerate_draft_version`. -/
def regenerate_draft_version (env : DraftEnv) (st : DraftStorage)
    (draft_id version_id user_id : String) (feedback : Option String)
    (fresh_id : String) (now : Nat) : Option DraftVersion × DraftStorage :=
  match get_draft st draft_id with
  | none => (none, st)
  | some draft =>
    if draft.user_id ≠ user_id then (none, st)
    else
      let previous_version := draft.versions.find? (fun v => v.id = version_id)
      let context : GenContext :=
        { previous_version := previous_version.map (·.content)
          user_feedback := feedback
          rejection_reason := previous_version.bind (·.rejected_reason)
          modifications := (previous_version.map (·.modifications)).getD [] }
      generate_draft_version env st draft_id user_id (some context) fresh_id now

/-- `DraftingService.delete_draft`. -/
def delete_draft (st : DraftStorage) (draft_id user_id : String) : Bool × DraftStorage :=
  match get_draft st draft_id with
  | none => (false, st)
  | some draft =>
    if draft.user_id ≠ user_id then (false, st)
    else (true, Store.erase st draft_id)

/-- `_compare_versions` output (`_diff_content` / `_diff_metadata` return
empty change lists in the source). -/
structure VersionComparison where
  content_changes : List String
  metadata_changes : List String
  status_from : String
  status_to : String
deriving DecidableEq, Repr

structure ComparisonPayload where
  version1 : VersionRecord
  version2 : VersionRecord
  comparison : VersionComparison
deriving DecidableEq, Repr

/-- `DraftingService.get_draft_comparison`. -/
def get_draft_comparison (st : DraftStorage)
    (draft_id version_id_1 version_id_2 user_id : String) : Option ComparisonPayload :=
  match get_draft st draft_id with
  | none => none
  | some draft =>
    if draft.user_id ≠ user_id then none
    else
      match draft.versions.find? (fun v => v.id = version_id_1),
            draft.versions.find? (fun v => v.id = version_id_2) with
      | some v1, some v2 =>
        some ⟨v1.toDict, v2.toDict, ⟨[], [], v1.status, v2.status⟩⟩
      | _, _ => none

/-- `_export_as_text` specialised to the content dicts this service stores:
section parts, then the `content` string, then the one remaining string
field `document_type`. -/
def exportAsText (content : DraftContent) : String :=
  let text_parts :=
    (content.sections.flatMap (fun s => ["\n" ++ s.title ++ "\n", s.content]))
    ++ [content.content]
    ++ ["document_type: " ++ content.document_type]
  let result := String.intercalate "\n" text_parts
  if pyStrip result = "" then "Content exported successfully" else result

/-- The export payload assembled by `export_draft`. -/
structure ExportData where
  id : String
  title : String
  documentType : String
  status : String
  createdAt : Nat
  updatedAt : Nat
  version : VersionRecord
  exportedAt : Nat
deriving DecidableEq, Repr

inductive ExportResult where
  | json (data : ExportData)
  | txt (text : String)
deriving DecidableEq, Repr

/-- `DraftingService.export_draft`. -/
def export_draft (st : DraftStorage) (draft_id user_id : String)
    (format : String) (now : Nat) : Option ExportResult :=
  match get_draft st draft_id with
  | none => none
  | some draft =>
    if draft.user_id ≠ user_id then none
    else
      let latest_version :=
        match draft.versions.reverse.find? (fun v => v.status = "approved") with
        | some v => some v
        | none => draft.versions.getLast?
      match latest_version with
      | none => none
      | some latest =>
        let export_data : ExportData :=
          ⟨draft.id, draft.title, draft.document_type, draft.status,
            draft.created_at, draft.updated_at, latest.toDict, now⟩
        if format = "json" then some (.json export_data)
        else if format = "txt" then some (.txt (exportAsText latest.content))
        else if format = "docx" then some (.json export_data)
        else if format = "pdf" then some (.json export_data)
        else none

end DraftingService

/-! ## Workflow service data model (`workflow_service.py`) -/

/-- Infix test on character lists. -/
def listIsInfix (sub : List Char) : List Char → Bool
  | [] => sub.isEmpty
  | c :: cs => sub.isPrefixOf (c :: cs) || listIsInfix sub cs

/-- Python `sub in s` on strings. -/
def containsSubstr (s sub : String) : Bool := listIsInfix sub.toList s.toList

/-- The result dict a step handler stores: its `type` tag, the opaque
entity-mapper payload, and the metadata fields (`confidence` in hundredths,
e.g. `0.92 ↦ 92`). -/
structure StepResult where
  type : String
  content : String
  sources : List String
  confidence_hundredths : Nat
  timestamp : Nat
deriving DecidableEq, Repr

structure WorkflowStep where
  id : String
  name : String
  description : String
  status : String
  progress : Nat
  start_time : Option Nat
  end_time : Option Nat
  duration : Option Nat
  result : Option StepResult
  error : Option String
  can_modify : Bool
  can_approve : Bool
deriving DecidableEq, Repr

/-- `WorkflowStep.__init__(step_id, name, description)`. -/
def WorkflowStep.init (step_id name description : String) : WorkflowStep :=
  ⟨step_id, name, description, "pending", 0, none, none, none, none, none, false, false⟩

/-- The `orchestrator` attribute of `Workflow` is always `None` in the
source and is omitted. -/
structure Workflow where
  id : String
  name : String
  description : String
  user_id : String
  status : String
  current_step : Nat
  steps : List WorkflowStep
  created_at : Nat
  updated_at : Nat
  estimated_duration : Nat
  chat_id : Option String
  draft_id : Option String
deriving DecidableEq, Repr

/-- The camelCase dict written by `WorkflowStep.to_dict`. -/
structure StepRecord where
  id : String
  name : String
  description : String
  status : String
  progress : Nat
  startTime : Option Nat
  endTime : Option Nat
  duration : Option Nat
  result : Option StepResult
  error : Option String
  canModify : Bool
  canApprove : Bool
deriving DecidableEq, Repr

def WorkflowStep.toDict (s : WorkflowStep) : StepRecord :=
  ⟨s.id, s.name, s.description, s.status, s.progress, s.start_time, s.end_time,
    s.duration, s.result, s.error, s.can_modify, s.can_approve⟩

/-- The step part of `_dict_to_workflow`. -/
def dictToStep (r : StepRecord) : WorkflowStep :=
  ⟨r.id, r.name, r.description, r.status, r.progress, r.startTime, r.endTime,
    r.duration, r.result, r.error, r.canModify, r.canApprove⟩

/-- The dict written by `Workflow.to_dict`. It has no `user_id` and no
`chat_id` key; `user_id : Option String` models the key that
`_dict_to_workflow` probes with `.get('user_id', '')` — `to_dict` never
writes it, so it is `none` on every stored record. -/
structure WorkflowRecord where
  id : String
  name : String
  description : String
  user_id : Option String
  status : String
  currentStep : Nat
  totalSteps : Nat
  steps : List StepRecord
  createdAt : Nat
  updatedAt : Nat
  estimatedDuration : Nat
  draftId : Option String
deriving DecidableEq, Repr

def Workflow.toDict (w : Workflow) : WorkflowRecord where
  id := w.id
  name := w.name
  description := w.description
  user_id := none
  status := w.status
  currentStep := w.current_step
  totalSteps := w.steps.length
  steps := w.steps.map WorkflowStep.toDict
  createdAt := w.created_at
  updatedAt := w.updated_at
  estimatedDuration := w.estimated_duration
  draftId := w.draft_id

/-- `WorkflowService._dict_to_workflow`: `user_id` defaults to `""` when the
key is absent; `chat_id` is never restored (stays at the `__init__` default
`None`). -/
def dictToWorkflow (r : WorkflowRecord) : Workflow where
  id := r.id
  name := r.name
  description := r.description
  user_id := (r.user_id).getD ""
  status := r.status
  current_step := r.currentStep
  steps := r.steps.map dictToStep
  created_at := r.createdAt
  updated_at := r.updatedAt
  estimated_duration := r.estimatedDuration
  chat_id := none
  draft_id := r.draftId

/-! ## Workflow service operations -/

/-- `WORKFLOW_STORAGE`. -/
abbrev WfStorage := List (String × WorkflowRecord)

/-- The entity-mapper / analyzer calls a step handler makes; each returns an
opaque payload (plus the metadata the handler copies out of it). -/
structure MapperResult where
  content : String
  sources : List String
  confidence_hundredths : Nat
deriving DecidableEq, Repr

structure WfEnv where
  loadChat : String → Option String → List Msg
  conductLegalResearch : String → MapperResult
  extractDocumentInfo : String → MapperResult
  draftDocument : String → MapperResult
  validateDocument : String → MapperResult
  reviewDocument : String → MapperResult
  infoGathering : List Msg → String × Nat
  partyInformation : List Msg → String
  keyTermsDefinition : List Msg → String
  legalRequirements : List Msg → String
  documentGeneration : List Msg → String
  reviewValidation : List Msg → String
  finalApproval : List Msg → String
  genericStep : String → List Msg → String

namespace WorkflowService

/-- `WorkflowService.get_workflow`. -/
def get_workflow (st : WfStorage) (workflow_id : String) : Option Workflow :=
  (Store.get? st workflow_id).map dictToWorkflow

/-- `WorkflowService.get_user_workflows`: filters stored records on
`workflow_data.get('user_id') == user_id` (Python `None == str` is false). -/
def get_user_workflows (st : WfStorage) (user_id : String) : List Workflow :=
  ((Store.values st).filter (fun r => r.user_id == some user_id)).map dictToWorkflow

/-- `_start_workflow` (the synchronous mutation; the spawned
`_execute_workflow` task is modelled by `executeWorkflow` below). -/
def startWorkflow (wf : Workflow) (st : WfStorage) (now : Nat) : Workflow × WfStorage :=
  let wf := { wf with status := "running", current_step := 0, updated_at := now }
  let wf :=
    if wf.steps ≠ [] then
      { wf with steps := (updateIdx wf.steps 0
          (fun s => { s with status := "running", start_time := some now })) }
    else wf
  (wf, Store.set st wf.id wf.toDict)

/-- `_pause_workflow`. -/
def pauseWorkflow (wf : Workflow) (st : WfStorage) (now : Nat) : Workflow × WfStorage :=
  let wf := { wf with status := "paused", updated_at := now }
  let wf :=
    if wf.current_step < wf.steps.length then
      { wf with steps := (updateIdx wf.steps wf.current_step
          (fun s => { s with status := "paused" })) }
    else wf
  (wf, Store.set st wf.id wf.toDict)

/-- `_resume_workflow` (synchronous part). -/
def resumeWorkflow (wf : Workflow) (st : WfStorage) (now : Nat) : Workflow × WfStorage :=
  let wf := { wf with status := "running", updated_at := now }
  let wf :=
    if wf.current_step < wf.steps.length then
      { wf with steps := (updateIdx wf.steps wf.current_step
          (fun s => { s with status := "running" })) }
    else wf
  (wf, Store.set st wf.id wf.toDict)

/-- `_stop_workflow`. -/
def stopWorkflow (wf : Workflow) (st : WfStorage) (now : Nat) : Workflow × WfStorage :=
  let wf := { wf with status := "error", updated_at := now }
  let wf :=
    if wf.current_step < wf.steps.length then
      { wf with steps := (updateIdx wf.steps wf.current_step
          (fun s => { s with status := "error", error := some "Workflow stopped by user" })) }
    else wf
  (wf, Store.set st wf.id wf.toDict)

/-- `WorkflowService.control_workflow`; note it takes no `user_id` and the
action dispatch does not inspect the current workflow status. -/
def control_workflow (st : WfStorage) (workflow_id action : String)
    (now : Nat) : Option Workflow × WfStorage :=
  match get_workflow st workflow_id with
  | none => (none, st)
  | some wf =>
    if action = "start" then
      let (w, s) := startWorkflow wf st now; (some w, s)
    else if action = "pause" then
      let (w, s) := pauseWorkflow wf st now; (some w, s)
    else if action = "resume" then
      let (w, s) := resumeWorkflow wf st now; (some w, s)
    else if action = "stop" then
      let (w, s) := stopWorkflow wf st now; (some w, s)
    else (some wf, st)

/-- `WorkflowService.approve_step`: gated only on `step.status == 'completed'`
(the `can_approve` flag is not consulted). The `asyncio.create_task`
resumption is modelled separately by `executeWorkflowStep`. -/
def approve_step (st : WfStorage) (workflow_id step_id : String)
    (now : Nat) : Option Workflow × WfStorage :=
  match get_workflow st workflow_id with
  | none => (none, st)
  | some wf =>
    match wf.steps.find? (fun s => s.id = step_id) with
    | some s =>
      if s.status = "completed" then
        let wf := { wf with steps := (updateFirst (fun s => s.id = step_id)
          (fun s => { s with can_approve := false }) wf.steps) }
        let wf :=
          if wf.current_step < wf.steps.length - 1 then
            let wf := { wf with current_step := wf.current_step + 1 }
            { wf with steps := (updateIdx wf.steps wf.current_step
                (fun s => { s with status := "running", start_time := some now })) }
          else wf
        let wf := { wf with updated_at := now }
        (some wf, Store.set st workflow_id wf.toDict)
      else (some wf, st)
    | none => (some wf, st)

/-- `_execute_research_step` (body; completion bookkeeping is done by the
caller's `finally` block, see `executeWorkflowStep`). -/
def executeResearchStep (env : WfEnv) (wf : Workflow) (s : WorkflowStep)
    (now : Nat) : WorkflowStep :=
  let text := extractConversationText (env.loadChat wf.user_id wf.chat_id)
  let r := env.conductLegalResearch text
  { s with result := some ⟨"research", r.content, r.sources, r.confidence_hundredths, now⟩,
           status := "completed", can_approve := true }

/-- `_execute_extraction_step`. -/
def executeExtractionStep (env : WfEnv) (wf : Workflow) (s : WorkflowStep)
    (now : Nat) : WorkflowStep :=
  let text := extractConversationText (env.loadChat wf.user_id wf.chat_id)
  let r := env.extractDocumentInfo text
  { s with result := some ⟨"extraction", r.content, r.sources, r.confidence_hundredths, now⟩,
           status := "completed", can_approve := true }

/-- `_execute_drafting_step`: the only handler that also sets `can_modify`. -/
def executeDraftingStep (env : WfEnv) (wf : Workflow) (s : WorkflowStep)
    (now : Nat) : WorkflowStep :=
  let text := extractConversationText (env.loadChat wf.user_id wf.chat_id)
  let r := env.draftDocument text
  { s with result := some ⟨"draft", r.content, r.sources, r.confidence_hundredths, now⟩,
           status := "completed", can_approve := true, can_modify := true }

/-- `_execute_validation_step`. -/
def executeValidationStep (env : WfEnv) (wf : Workflow) (s : WorkflowStep)
    (now : Nat) : WorkflowStep :=
  let text := extractConversationText (env.loadChat wf.user_id wf.chat_id)
  let r := env.validateDocument text
  { s with result := some ⟨"validation", r.content, r.sources, r.confidence_hundredths, now⟩,
           status := "completed", can_approve := true }

/-- `_execute_review_step`: marks the step completed but — unlike every other
handler — never sets `can_approve`. -/
def executeReviewStep (env : WfEnv) (wf : Workflow) (s : WorkflowStep)
    (now : Nat) : WorkflowStep :=
  let text := extractConversationText (env.loadChat wf.user_id wf.chat_id)
  let r := env.reviewDocument text
  { s with result := some ⟨"review", r.content, r.sources, r.confidence_hundredths, now⟩,
           status := "completed" }

/-- `_execute_dynamic_step` (branch selection by substring of the lowered
step name, in source order; fixed confidences from the source). -/
def executeDynamicStep (env : WfEnv) (wf : Workflow) (i : Nat) (s : WorkflowStep)
    (st : WfStorage) (now : Nat) : WorkflowStep × WfStorage :=
  let msgs := env.loadChat wf.user_id wf.chat_id
  let s := { s with progress := 25 }
  let st := Store.set st wf.id ({ wf with steps := updateIdx wf.steps i (fun _ => s) }).toDict
  let n := pyLower s.name
  let result : StepResult :=
    if containsSubstr n "information gathering" then
      let (p, conf) := env.infoGathering msgs
      ⟨"information_gathering", p, ["Conversation Analyzer"], conf, now⟩
    else if containsSubstr n "party information" then
      ⟨"party_information", env.partyInformation msgs, ["Entity Mapper"], 90, now⟩
    else if containsSubstr n "key terms" then
      ⟨"key_terms", env.keyTermsDefinition msgs, ["Entity Mapper"], 88, now⟩
    else if containsSubstr n "legal requirements" then
      ⟨"legal_requirements", env.legalRequirements msgs, ["Entity Mapper", "Legal Database"], 92, now⟩
    else if containsSubstr n "document generation" then
      ⟨"document_generation", env.documentGeneration msgs, ["Entity Mapper", "Template Library"], 95, now⟩
    else if containsSubstr n "review" || containsSubstr n "validation" then
      ⟨"review", env.reviewValidation msgs, ["Entity Mapper", "Validation Engine"], 96, now⟩
    else if containsSubstr n "final approval" then
      ⟨"final_approval", env.finalApproval msgs, ["Entity Mapper", "Approval System"], 98, now⟩
    else
      ⟨"generic", env.genericStep s.name msgs, ["Entity Mapper"], 90, now⟩
  ({ s with result := some result, status := "completed", can_approve := true }, st)

/-- `_execute_workflow_step` on the exception-free path: mark the step
running, dispatch on the lowered step name, then the `finally` block stamps
`end_time`, `duration` and `progress = 100` and stores the workflow.
`t0`/`t1` are the `datetime.now()` readings at step start and end. -/
def executeWorkflowStep (env : WfEnv) (st : WfStorage) (wf : Workflow)
    (step_index : Nat) (t0 t1 : Nat) : Workflow × WfStorage :=
  match wf.steps[step_index]? with
  | none => (wf, st)
  | some s0 =>
    let s1 := { s0 with status := "running", start_time := some t0, progress := 0 }
    let wf1 := { wf with steps := updateIdx wf.steps step_index (fun _ => s1) }
    let st1 := Store.set st wf1.id wf1.toDict
    let n := pyLower s1.name
    let (s2, st2) :=
      if n = "research" then (executeResearchStep env wf1 s1 t0, st1)
      else if n = "extraction" then (executeExtractionStep env wf1 s1 t0, st1)
      else if n = "drafting" then (executeDraftingStep env wf1 s1 t0, st1)
      else if n = "validation" then (executeValidationStep env wf1 s1 t0, st1)
      else if n = "review" then (executeReviewStep env wf1 s1 t0, st1)
      else executeDynamicStep env wf1 step_index s1 st1 t0
    let s3 := { s2 with end_time := some t1, duration := some (t1 - t0), progress := 100 }
    let wf2 := { wf1 with steps := updateIdx wf1.steps step_index (fun _ => s3), updated_at := t1 }
    (wf2, Store.set st2 wf2.id wf2.toDict)

/-- The `for i, step in enumerate(workflow.steps)` loop of
`_execute_workflow`, with the visited step indices recorded; `times i` gives
the start/end clock readings of step `i`. -/
def executeWorkflowSteps (env : WfEnv) (times : Nat → Nat × Nat) :
    Nat → Nat → Workflow → WfStorage → List Nat → Workflow × WfStorage × List Nat
  | 0, _, wf, st, tr => (wf, st, tr)
  | fuel + 1, i, wf, st, tr =>
    if wf.status ≠ "running" then (wf, st, tr)
    else
      let wf := { wf with current_step := i }
      let (wf, st) := executeWorkflowStep env st wf i (times i).1 (times i).2
      if wf.status ≠ "running" then (wf, st, tr ++ [i])
      else executeWorkflowSteps env times fuel (i + 1) wf st (tr ++ [i])

/-- `_execute_workflow` on the exception-free path (the per-step
approval wait is a sleep with no state effect and is omitted). -/
def executeWorkflow (env : WfEnv) (times : Nat → Nat × Nat) (wf : Workflow)
    (st : WfStorage) (tEnd : Nat) : Workflow × WfStorage × List Nat :=
  let (wf, st, tr) := executeWorkflowSteps env times wf.steps.length 0 wf st []
  if wf.status = "running" then
    let wf := { wf with status := "completed", updated_at := tEnd }
    (wf, Store.set st wf.id wf.toDict, tr)
  else (wf, st, tr)

end WorkflowService

/-! ## Dynamic schema loader (`dynamic_schema_loader.py`) -/

/-- `any(word in conversation for word in words)`. -/
def anyWordIn (conversation : String) (words : List String) : Bool :=
  words.any (fun w => containsSubstr conversation w)

/-- The `characteristics` dict of `_analyze_conversation_context`. -/
structure Characteristics where
  name : String
  description : String
  category : String
  jurisdiction : String
  parties_involved : List String
  key_topics : List String
  legal_requirements : List String
  business_terms : List String
deriving DecidableEq, Repr

/-- `DynamicSchemaLoader._extract_legal_requirements` (input is already
lowercased by the caller). -/
def extractLegalRequirements (conversation : String) : List String :=
  (if containsSubstr conversation "confidentiality" || containsSubstr conversation "nda" then
    ["confidentiality_clause"] else [])
  ++ (if containsSubstr conversation "non-compete" || containsSubstr conversation "restrictive" then
    ["non_compete_clause"] else [])
  ++ (if containsSubstr conversation "termination" || containsSubstr conversation "notice" then
    ["termination_procedures"] else [])
  ++ (if containsSubstr conversation "dispute" || containsSubstr conversation "arbitration" then
    ["dispute_resolution"] else [])

/-- `DynamicSchemaLoader._extract_business_terms`. -/
def extractBusinessTerms (conversation : String) : List String :=
  (if anyWordIn conversation ["salary", "payment", "compensation", "fee"] then
    ["financial_terms"] else [])
  ++ (if anyWordIn conversation ["duration", "period", "term", "length"] then
    ["duration_terms"] else [])
  ++ (if anyWordIn conversation ["performance", "evaluation", "review"] then
    ["performance_terms"] else [])

/-- `DynamicSchemaLoader._analyze_conversation_context`. -/
def analyzeConversationContext (conversation : String) : Characteristics :=
  let cl := pyLower conversation
  let base : Characteristics :=
    ⟨"Dynamic Document", "Generated based on conversation context", "general", "kenya",
      [], [], [], []⟩
  let c :=
    if anyWordIn cl ["employment", "employee", "employer", "job", "work"] then
      { base with
        name := "Employment Contract"
        category := "employment"
        parties_involved := ["employer", "employee"]
        key_topics := ["salary", "working hours", "benefits", "termination"] }
    else if anyWordIn cl ["lease", "rent", "tenant", "landlord", "property"] then
      { base with
        name := "Lease Agreement"
        category := "property"
        parties_involved := ["landlord", "tenant"]
        key_topics := ["rent", "duration", "property details", "utilities"] }
    else if anyWordIn cl ["partnership", "business", "company", "venture"] then
      { base with
        name := "Partnership Agreement"
        category := "business"
        parties_involved := ["partner1", "partner2"]
        key_topics := ["capital", "profit sharing", "management", "dissolution"] }
    else if anyWordIn cl ["service", "consulting", "freelance", "contractor"] then
      { base with
        name := "Service Agreement"
        category := "services"
        parties_involved := ["client", "service_provider"]
        key_topics := ["scope", "payment", "deliverables", "timeline"] }
    else base
  { c with
    legal_requirements := extractLegalRequirements cl
    business_terms := extractBusinessTerms cl }

/-- One field-discovery entry; `role` / `validation` are `Option` because the
party entries carry `role` but no `validation` and the topic entries carry
`validation` but no `role`. -/
structure DSField where
  pattern : String
  field_type : String
  role : Option String
  validation : Option String
  priority : String
deriving DecidableEq, Repr

def partyField (party : String) : DSField :=
  ⟨party ++ "|" ++ pyReplaceChar party '_' ' ', "party", some party, none, "critical"⟩

def salaryField : DSField :=
  ⟨"salary|compensation|payment|remuneration", "currency", none, some "required", "high"⟩

def durationField : DSField :=
  ⟨"duration|period|term|length", "duration", none, some "required", "high"⟩

/-- `DynamicSchemaLoader._generate_field_discovery`. -/
def generateFieldDiscovery (c : Characteristics) : List (String × List DSField) :=
  (if c.parties_involved ≠ [] then [("parties", c.parties_involved.map partyField)] else [])
  ++ c.key_topics.map (fun t =>
      (t, if t = "salary" then [salaryField]
          else if t = "duration" then [durationField]
          else []))

structure AutoFieldRule where
  trigger : String
  generate : List String
deriving DecidableEq, Repr

structure CondFieldRule where
  condition : String
  add_fields : List String
deriving DecidableEq, Repr

structure FieldGenRules where
  auto_fields : List AutoFieldRule
  conditional_fields : List CondFieldRule
deriving DecidableEq, Repr

/-- `_generate_field_generation_rules`. -/
def generateFieldGenerationRules (c : Characteristics) : FieldGenRules :=
  ⟨[⟨"parties_mentioned", c.parties_involved.map (· ++ "_details")⟩],
   [⟨"confidentiality_required", ["confidentiality_scope", "duration", "penalties"]⟩]⟩

structure SchemaValidation where
  required_sections : List String
  legal_requirements : List String
  business_logic : List String
deriving DecidableEq, Repr

/-- `_generate_validation_rules` (loader). -/
def generateSchemaValidation (c : Characteristics) : SchemaValidation :=
  ⟨c.key_topics, c.legal_requirements, ["start_date <= end_date", "amount >= 0"]⟩

structure SchemaTemplate where
  name : String
  sections : List String
deriving DecidableEq, Repr

/-- `_generate_templates` (only the `standard` template). -/
def generateTemplates (c : Characteristics) : SchemaTemplate :=
  ⟨"Standard " ++ c.name, c.key_topics⟩

structure ReviewStage where
  name : String
  description : String
  validation : String
deriving DecidableEq, Repr

/-- `_generate_review_workflow` (fixed stages). -/
def generateReviewWorkflow (_c : Characteristics) : List ReviewStage :=
  [⟨"Information Gathering", "Extract and validate all required information",
      "required_fields_complete"⟩,
   ⟨"Legal Compliance", "Ensure compliance with relevant laws", "legal_requirements_met"⟩,
   ⟨"Business Terms", "Review and finalize business terms", "business_terms_agreed"⟩,
   ⟨"Document Generation", "Generate final document", "document_complete"⟩]

structure UserInteraction where
  information_gathering : List String
  validation_questions : List String
  final_confirmation : List String
deriving DecidableEq, Repr

/-- `_generate_user_interaction`. -/
def generateUserInteraction (c : Characteristics) : UserInteraction where
  information_gathering :=
    c.parties_involved.map (fun p => "What are the details for " ++ p ++ "?")
    ++ c.key_topics.map (fun t => "What are the " ++ t ++ "?")
  validation_questions :=
    ["Please confirm all party details", "Please review the key terms",
     "Please confirm legal compliance"]
  final_confirmation :=
    ["All information has been reviewed and is correct",
     "The document complies with relevant laws",
     "All parties agree to the terms",
     "Ready to generate final document"]

structure Schema where
  name : String
  description : String
  category : String
  jurisdiction : String
  field_discovery : List (String × List DSField)
  field_generation : FieldGenRules
  validation : SchemaValidation
  templates : SchemaTemplate
  review_workflow : List ReviewStage
  user_interaction : UserInteraction
deriving DecidableEq, Repr

/-- `DynamicSchemaLoader.create_dynamic_schema`. `schemas` is the loader's
mutable `self.schemas` state; the method neither reads nor writes it, and the
`characteristics.get(..., default)` fallbacks involving `document_type` are
dead because `_analyze_conversation_context` always sets those keys. -/
def createDynamicSchema (schemas : List (String × Schema))
    (document_type conversation_context : String) : Schema :=
  let _ := schemas
  let _ := document_type
  let ch := analyzeConversationContext conversation_context
  { name := ch.name
    description := ch.description
    category := ch.category
    jurisdiction := ch.jurisdiction
    field_discovery := generateFieldDiscovery ch
    field_generation := generateFieldGenerationRules ch
    validation := generateSchemaValidation ch
    templates := generateTemplates ch
    review_workflow := generateReviewWorkflow ch
    user_interaction := generateUserInteraction ch }

/-! ## Dynamic form generator (`dynamic_form_generator.py`) -/

/-- `DynamicFormGenerator._detect_document_type`. -/
def detectDocumentType (conversation : String) : String :=
  let cl := pyLower conversation
  if anyWordIn cl ["employment", "employee", "employer", "job", "work"] then
    "employment_contract"
  else if anyWordIn cl ["lease", "rent", "tenant", "landlord", "property"] then
    "lease_agreement"
  else if anyWordIn cl ["partnership", "business", "company", "venture"] then
    "partnership_agreement"
  else if anyWordIn cl ["service", "consulting", "freelance", "contractor"] then
    "service_agreement"
  else if anyWordIn cl ["demand", "payment", "debt", "owed"] then
    "demand_letter"
  else if anyWordIn cl ["court", "plaint", "lawsuit", "case"] then
    "plaint"
  else if anyWordIn cl ["affidavit", "sworn", "statement", "witness"] then
    "affidavit"
  else "custom_document"

/-- A value stored in `extracted_info`: party-detail dicts or extracted
field strings. -/
inductive ExtractedValue where
  | str (s : String)
  | party (info : List (String × String))
deriving DecidableEq, Repr

/-- The regex-driven helpers `_extract_party_details` / `_extract_field_value`
and the `re.findall(...)` emptiness tests; their `re` semantics is not
reproduced, so they are parameters of the extraction step. -/
structure ExtractEnv where
  reMatches : String → String → Bool
  extractPartyDetails : String → String → List (String × String)
  extractFieldValue : String → String → String → Option String

/-- `DynamicFormGenerator._extract_information_from_conversation`.
Party entries index `party_field['role']` directly (always present on
loader-produced schemas; `getD ""` totalises). A falsy (empty) extracted
value or party dict is discarded, as in the source. -/
def extractInformation (env : ExtractEnv) (conversation : String)
    (schema : Schema) : List (String × ExtractedValue) :=
  let e1 :=
    match Store.get? schema.field_discovery "parties" with
    | some party_fields =>
      party_fields.foldl (fun acc pf =>
        if env.reMatches pf.pattern conversation then
          let party_info := env.extractPartyDetails conversation pf.pattern
          if party_info ≠ [] then Store.set acc (pf.role.getD "") (.party party_info)
          else acc
        else acc) []
    | none => []
  schema.field_discovery.foldl (fun acc cf =>
    if cf.1 ≠ "parties" then
      cf.2.foldl (fun acc f =>
        if env.reMatches f.pattern conversation then
          match env.extractFieldValue conversation f.pattern f.field_type with
          | some v => if v ≠ "" then Store.set acc cf.1 (.str v) else acc
          | none => acc
        else acc) acc
    else acc) e1

/-- `_map_field_type`. -/
def mapFieldType (schema_type : String) : String :=
  if schema_type = "text" then "text"
  else if schema_type = "textarea" then "textarea"
  else if schema_type = "number" then "number"
  else if schema_type = "date" then "date"
  else if schema_type = "select" then "select"
  else if schema_type = "boolean" then "select"
  else if schema_type = "currency" then "number"
  else if schema_type = "duration" then "number"
  else if schema_type = "party" then "text"
  else "text"

/-- The per-type validation-rule dict of `_get_validation_rules`. -/
structure FieldRules where
  min_length : Option Nat
  max_length : Option Nat
  min_num : Option Nat
  max_num : Option Nat
  min_date : Option String
  max_date : Option String
deriving DecidableEq, Repr

def getFieldRules (field_type : String) : FieldRules :=
  if field_type = "text" then ⟨some 2, some 100, none, none, none, none⟩
  else if field_type = "textarea" then ⟨some 10, some 1000, none, none, none, none⟩
  else if field_type = "number" then ⟨none, none, some 0, some 999999999, none, none⟩
  else if field_type = "currency" then ⟨none, none, some 0, some 999999999, none, none⟩
  else if field_type = "date" then ⟨none, none, none, none, some "1900-01-01", some "2100-12-31"⟩
  else ⟨none, none, none, none, none, none⟩

/-- `_get_select_options`. -/
def getSelectOptions (field : DSField) : List String :=
  if field.field_type = "boolean" then ["Yes", "No"]
  else
    let role := field.role.getD ""
    if containsSubstr role "type" then ["Standard", "Custom", "Other"]
    else if containsSubstr role "status" then ["Active", "Inactive", "Pending"]
    else ["Option 1", "Option 2", "Option 3"]

structure FieldConfig where
  type : String
  label : String
  required : Bool
  priority : String
  validation : FieldRules
  extraction_patterns : List String
  options : Option (List String)
  prefilled_value : Option ExtractedValue
deriving DecidableEq, Repr

/-- `_create_field_config`: note the prefill lookup keys on the bare
`field.get('role')`, not on the composite `category_role` field name. -/
def createFieldConfig (field : DSField)
    (extracted_info : List (String × ExtractedValue)) : FieldConfig where
  type := mapFieldType field.field_type
  label := pyTitle (pyReplaceChar (field.role.getD "value") '_' ' ')
  required := field.validation == some "required"
  priority := field.priority
  validation := getFieldRules field.field_type
  extraction_patterns := [field.pattern]
  options := if field.field_type = "select" then some (getSelectOptions field) else none
  prefilled_value :=
    match field.role with
    | some r => Store.get? extracted_info r
    | none => none

structure FormSection where
  name : String
  fields : List String
deriving DecidableEq, Repr

structure FormStructure where
  fields : List (String × FieldConfig)
  field_order : List String
  sections : List FormSection
deriving DecidableEq, Repr

/-- `_generate_form_structure`. -/
def generateFormStructure (schema : Schema)
    (extracted_info : List (String × ExtractedValue)) : FormStructure :=
  schema.field_discovery.foldl (fun fs cf =>
    let section0 : FormSection := ⟨pyTitle (pyReplaceChar cf.1 '_' ' '), []⟩
    let step := cf.2.foldl (fun (p : FormStructure × FormSection) f =>
      let field_name := cf.1 ++ "_" ++ (f.role.getD "value")
      let config := createFieldConfig f extracted_info
      (⟨Store.set p.1.fields field_name config, p.1.field_order ++ [field_name], p.1.sections⟩,
        ⟨p.2.name, p.2.fields ++ [field_name]⟩)) (fs, section0)
    { step.1 with sections := step.1.sections ++ [step.2] }) ⟨[], [], []⟩

/-- `_get_required_fields`. -/
def getRequiredFields (schema : Schema) : List String :=
  schema.field_discovery.flatMap (fun cf =>
    (cf.2.filter (fun f => f.validation == some "required")).map
      (fun f => cf.1 ++ "_" ++ (f.role.getD "value")))

structure FormValidationRules where
  required_fields : List String
  business_rules : List String
  legal_requirements : List String
deriving DecidableEq, Repr

/-- `_generate_validation_rules` (form generator). -/
def generateFormValidationRules (schema : Schema) : FormValidationRules :=
  ⟨getRequiredFields schema, schema.validation.business_logic,
    schema.validation.legal_requirements⟩

structure InteractionFlow where
  stages : List ReviewStage
  questions : List String
  validation_questions : List String
  final_confirmation : List String
deriving DecidableEq, Repr

/-- `_generate_interaction_flow` (ignores `extracted_info`, as the source does). -/
def generateInteractionFlow (schema : Schema) : InteractionFlow :=
  ⟨schema.review_workflow, schema.user_interaction.information_gathering,
    schema.user_interaction.validation_questions,
    schema.user_interaction.final_confirmation⟩

/-- `DynamicFormGenerator._identify_missing_info`. -/
def identifyMissingInfo (schema : Schema)
    (extracted_info : List (String × ExtractedValue)) : List String :=
  schema.field_discovery.flatMap (fun cf =>
    cf.2.flatMap (fun f =>
      if f.validation == some "required" then
        let field_name := cf.1 ++ "_" ++ (f.role.getD "value")
        if (Store.get? extracted_info field_name).isNone then [field_name] else []
      else []))

/-- The dict returned by `generate_form_from_conversation`; `next_questions`
is the key added only by `update_form_with_user_input`. -/
structure FormData where
  document_type : String
  schema : Schema
  form_structure : FormStructure
  validation_rules : FormValidationRules
  interaction_flow : InteractionFlow
  extracted_info : List (String × ExtractedValue)
  missing_info : List String
  next_questions : Option (List String)
deriving DecidableEq, Repr

/-- `DynamicFormGenerator.generate_form_from_conversation`. -/
def generateFormFromConversation (env : ExtractEnv)
    (schemas : List (String × Schema)) (conversation : String) : FormData :=
  let document_type := detectDocumentType conversation
  let schema := createDynamicSchema schemas document_type conversation
  let extracted_info := extractInformation env conversation schema
  { document_type := document_type
    schema := schema
    form_structure := generateFormStructure schema extracted_info
    validation_rules := generateFormValidationRules schema
    interaction_flow := generateInteractionFlow schema
    extracted_info := extracted_info
    missing_info := identifyMissingInfo schema extracted_info
    next_questions := none }

/-- `field_name.split('_', 1)[1]`. -/
def afterFirstUnderscore (s : String) : String := afterFirstChar s '_' 

/-- `_generate_next_questions` (total model of the source, which assumes
every missing field name contains an underscore — true of all generated
field names). -/
def generateNextQuestions (missing_info : List String) (_schema : Schema) : List String :=
  missing_info.map (fun field_name =>
    let field_type := afterFirstUnderscore field_name
    if containsSubstr field_name "employer" || containsSubstr field_name "employee" then
      "What is the " ++ pyReplaceChar field_type '_' ' ' ++ " name and details?"
    else if containsSubstr field_name "salary" || containsSubstr field_name "payment" then
      "What is the agreed salary/compensation amount?"
    else if containsSubstr field_name "duration" || containsSubstr field_name "period" then
      "What is the contract duration/period?"
    else if containsSubstr field_name "start" || containsSubstr field_name "commencement" then
      "What is the start/commencement date?"
    else "Please provide " ++ pyReplaceChar field_name '_' ' ')

/-- `DynamicFormGenerator.update_form_with_user_input`. -/
def updateFormWithUserInput (form_data : FormData)
    (user_input : List (String × ExtractedValue)) : FormData :=
  let extracted := Store.setAll form_data.extracted_info user_input
  let missing := identifyMissingInfo form_data.schema extracted
  { form_data with
    extracted_info := extracted
    missing_info := missing
    next_questions := some (generateNextQuestions missing form_data.schema) }

/-! ## Concrete sample inputs (used by witnesses and counterexamples) -/

/-- A concrete drafting environment for closed evaluations. -/
def trivialDraftEnv : DraftEnv where
  loadChat := fun _ _ => []
  analyze := fun _ => ⟨none, ""⟩
  draftAgent := fun _ _ => "draft text"

/-- A concrete workflow environment for closed evaluations. -/
def trivialWfEnv : WfEnv where
  loadChat := fun _ _ => []
  conductLegalResearch := fun _ => ⟨"r", [], 50⟩
  extractDocumentInfo := fun _ => ⟨"e", [], 50⟩
  draftDocument := fun _ => ⟨"d", [], 50⟩
  validateDocument := fun _ => ⟨"v", [], 50⟩
  reviewDocument := fun _ => ⟨"w", [], 50⟩
  infoGathering := fun _ => ("ig", 50)
  partyInformation := fun _ => "pi"
  keyTermsDefinition := fun _ => "kt"
  legalRequirements := fun _ => "lr"
  documentGeneration := fun _ => "dg"
  reviewValidation := fun _ => "rv"
  finalApproval := fun _ => "fa"
  genericStep := fun _ _ => "gs"

/-- A concrete extraction environment for closed evaluations. -/
def trivialExtractEnv : ExtractEnv where
  reMatches := fun _ _ => false
  extractPartyDetails := fun _ _ => []
  extractFieldValue := fun _ _ _ => none

/-- Storage holding one freshly created draft owned by `"alice"`. -/
def c2Storage0 : DraftStorage :=
  (DraftingService.create_draft_from_chat trivialDraftEnv [] "alice" "chat1"
    (some "contract") "d1" 0).2

/-- One `generate_draft_version` call on the fresh draft. -/
def c2GenResult : Option DraftVersion × DraftStorage :=
  DraftingService.generate_draft_version trivialDraftEnv c2Storage0 "d1" "alice" none "v1" 1

/-- A three-step workflow `[A, B, C]` owned by `"alice"` whose step `B` is
running (`current_step = 1`). -/
def c5Workflow : Workflow where
  id := "w1"
  name := "Legal Workflow"
  description := "Multi-step legal document processing workflow"
  user_id := "alice"
  status := "running"
  current_step := 1
  steps :=
    [{ WorkflowStep.init "s1" "Research" "Legal research" with
        status := "completed", can_approve := true },
     { WorkflowStep.init "s2" "Extraction" "Document information extraction" with
        status := "running", start_time := some 1 },
     WorkflowStep.init "s3" "Drafting" "Document drafting"]
  created_at := 0
  updated_at := 0
  estimated_duration := 9
  chat_id := some "chat1"
  draft_id := none

def c5Storage : WfStorage := [("w1", c5Workflow.toDict)]

def c5A : StepRecord :=
  ({ WorkflowStep.init "s1" "Research" "Legal research" with
      status := "completed", can_approve := true } : WorkflowStep).toDict

def c5B : StepRecord :=
  ({ WorkflowStep.init "s2" "Extraction" "Document information extraction" with
      status := "running", start_time := some 1 } : WorkflowStep).toDict

def c5C : StepRecord := (WorkflowStep.init "s3" "Drafting" "Document drafting").toDict

/-- A running workflow whose only step is named "Review". -/
def c6ReviewWorkflow : Workflow :=
  { c5Workflow with
    steps := [WorkflowStep.init "s1" "Review" "Final review and approval"]
    current_step := 0 }

/-- A workflow whose first step is completed but NOT approvable
(`can_approve = false`). -/
def c4Workflow : Workflow :=
  { c5Workflow with
    current_step := 0
    steps :=
      [{ WorkflowStep.init "s1" "Review" "Final review" with
          status := "completed", can_approve := false },
       WorkflowStep.init "s2" "Drafting" "Document drafting"] }

def c4Storage : WfStorage := [("w1", c4Workflow.toDict)]

def c1Content : DraftContent := ⟨"contract", "body", [], ⟨0, 8, [], "contract", []⟩⟩

/-- A pending version created by `"alice"`. -/
def c1Version : DraftVersion := DraftVersion.init "v1" c1Content "alice" 0

/-- A draft owned by `"alice"` holding the single pending version. -/
def c1Draft : DocumentDraft :=
  { DocumentDraft.init "d1" "alice" "chat1" "contract" 0 with
    versions := [c1Version] }

def c1Storage : DraftStorage := [("d1", c1Draft.toDict)]

/-- A form generated from an employment conversation (its one required
field, `salary_value`, is missing). -/
def c8Form : FormData :=
  generateFormFromConversation trivialExtractEnv [] "employment contract"

/-! ## Supporting lemmas -/

theorem Store.get?_set_self (st : List (String × α)) (k : String) (v : α) :
    Store.get? (Store.set st k v) k = some v := by
  induction st with
  | nil => simp [Store.set, Store.get?]
  | cons hd tl ih =>
    obtain ⟨k', v'⟩ := hd
    by_cases h : k' = k <;> simp [Store.set, Store.get?, h, ih]

theorem Store.get?_set_ne (st : List (String × α)) (k k' : String) (v : α) (h : k ≠ k') :
    Store.get? (Store.set st k v) k' = Store.get? st k' := by
  induction st with
  | nil => simp [Store.set, Store.get?, h]
  | cons hd tl ih =>
    obtain ⟨k'', v''⟩ := hd
    by_cases h2 : k'' = k
    · subst h2
      simp [Store.set, Store.get?, h]
    · simp [Store.set, Store.get?, h2, ih]

theorem dictToVersion_toDict (r : VersionRecord) : (dictToVersion r).toDict = r := rfl

theorem toDict_dictToVersion (v : DraftVersion) : dictToVersion v.toDict = v := rfl

theorem versions_roundtrip (l : List VersionRecord) :
    (l.map dictToVersion).map DraftVersion.toDict = l := by
  simp [Function.comp_def, dictToVersion_toDict]

theorem dictToStep_toDict (r : StepRecord) : (dictToStep r).toDict = r := rfl

theorem steps_roundtrip (l : List StepRecord) :
    (l.map dictToStep).map WorkflowStep.toDict = l := by
  simp [Function.comp_def, dictToStep_toDict]

theorem updateFirst_length (p : α → Bool) (f : α → α) (l : List α) :
    (updateFirst p f l).length = l.length := by
  induction l with
  | nil => rfl
  | cons x xs ih => by_cases h : p x <;> simp [updateFirst, h, ih]

theorem updateFirst_map (g : α → β) (g' : β → α) (hgg : ∀ x, g' (g x) = x)
    (p : β → Bool) (f : β → β) (l : List α) :
    (updateFirst p f (l.map g)).map g'
      = updateFirst (fun x => p (g x)) (fun x => g' (f (g x))) l := by
  induction l with
  | nil => rfl
  | cons x xs ih =>
    by_cases h : p (g x) <;>
      simp [updateFirst, h, ih, hgg, Function.comp_def, List.map_congr_left (fun x _ => hgg x)]

theorem find?_updateFirst (p : α → Bool) (f : α → α) (l : List α)
    (hpf : ∀ x, p (f x) = p x) :
    (updateFirst p f l).find? p = (l.find? p).map f := by
  induction l with
  | nil => rfl
  | cons x xs ih =>
    by_cases h : p x
    · simp [updateFirst, h, List.find?, hpf]
    · simp [updateFirst, h, List.find?, ih]

theorem updateIdx_length (l : List α) (i : Nat) (f : α → α) :
    (updateIdx l i f).length = l.length := by
  induction l generalizing i with
  | nil => rfl
  | cons x xs ih =>
    cases i with
    | zero => simp [updateIdx]
    | succ j => simp [updateIdx, ih]

theorem updateIdx_getElem_self (l : List α) (i : Nat) (f : α → α) :
    (updateIdx l i f)[i]? = (l[i]?).map f := by
  induction l generalizing i with
  | nil => simp [updateIdx]
  | cons x xs ih =>
    cases i with
    | zero => simp [updateIdx]
    | succ j => simpa [updateIdx] using ih j

theorem updateIdx_getElem_ne (l : List α) (i j : Nat) (f : α → α) (h : j ≠ i) :
    (updateIdx l i f)[j]? = l[j]? := by
  induction l generalizing i j with
  | nil => simp [updateIdx]
  | cons x xs ih =>
    cases i with
    | zero =>
      cases j with
      | zero => exact absurd rfl h
      | succ k => simp [updateIdx]
    | succ i' =>
      cases j with
      | zero => simp [updateIdx]
      | succ k =>
        have : k ≠ i' := by omega
        simpa [updateIdx] using ih i' k this

theorem updateFirst_getElem (p : α → Bool) (f : α → α) (l : List α) (j : Nat)
    (hj : ∀ k, k < j → ∀ x, l[k]? = some x → p x = false)
    (hjp : ∀ x, l[j]? = some x → p x = true) :
    ∀ k, (updateFirst p f l)[k]? = if k = j then (l[j]?).map f else l[k]? := by
  induction l generalizing j with
  | nil => intro k; simp [updateFirst]
  | cons x xs ih =>
    intro k
    cases j with
    | zero =>
      have hx : p x = true := hjp x (by simp)
      cases k with
      | zero => simp [updateFirst, hx]
      | succ m => simp [updateFirst, hx]
    | succ j' =>
      have hx : p x = false := hj 0 (Nat.succ_pos _) x (by simp)
      cases k with
      | zero => simp [updateFirst, hx]
      | succ m =>
        have ih' := ih j' (fun k hk y hy => hj (k + 1) (by omega) y (by simpa using hy))
          (fun y hy => hjp y (by simpa using hy)) m
        simp only [updateFirst, hx, Bool.false_eq_true, if_false, List.getElem?_cons_succ]
        simpa using ih'

theorem find?_eq_getElem_of_first (p : α → Bool) (l : List α) (j : Nat)
    (hj : ∀ k, k < j → ∀ x, l[k]? = some x → p x = false)
    (hjp : ∀ x, l[j]? = some x → p x = true) :
    l.find? p = l[j]? ∨ l[j]? = none := by
  induction l generalizing j with
  | nil => right; simp
  | cons x xs ih =>
    cases j with
    | zero =>
      left
      have hx : p x = true := hjp x (by simp)
      simp [List.find?, hx]
    | succ j' =>
      have hx : p x = false := hj 0 (Nat.succ_pos _) x (by simp)
      have := ih j' (fun k hk y hy => hj (k + 1) (by omega) y (by simpa using hy))
        (fun y hy => hjp y (by simpa using hy))
      simpa [List.find?, hx] using this

theorem executeWorkflowStep_status (env : WfEnv) (st : WfStorage) (wf : Workflow)
    (i t0 t1 : Nat) :
    (WorkflowService.executeWorkflowStep env st wf i t0 t1).1.status = wf.status := by
  unfold WorkflowService.executeWorkflowStep
  cases hs : wf.steps[i]? with
  | none => rfl
  | some s => rfl

theorem executeWorkflowSteps_trace (env : WfEnv) (times : Nat → Nat × Nat) :
    ∀ (fuel i : Nat) (wf : Workflow) (st : WfStorage) (tr : List Nat),
      wf.status = "running" →
      (WorkflowService.executeWorkflowSteps env times fuel i wf st tr).2.2
        = tr ++ List.range' i fuel := by
  intro fuel
  induction fuel with
  | zero =>
    intro i wf st tr h
    simp [WorkflowService.executeWorkflowSteps]
  | succ n ih =>
    intro i wf st tr h
    unfold WorkflowService.executeWorkflowSteps
    rw [if_neg (by simp [h])]
    dsimp only
    rcases he : WorkflowService.executeWorkflowStep env st { wf with current_step := i } i
      (times i).1 (times i).2 with ⟨wf2, st2⟩
    have hst2 : wf2.status = "running" := by
      have hp := executeWorkflowStep_status env st { wf with current_step := i } i
        (times i).1 (times i).2
      rw [he] at hp
      simpa [h] using hp
    dsimp only
    rw [if_neg (by simp [hst2])]
    rw [ih (i + 1) wf2 st2 (tr ++ [i]) hst2]
    simp [List.range'_succ]

/-! ## Claim theorems -/

theorem Store.get?_set_isSome (st : List (String × α)) (k n : String) (v : α)
    (h : (Store.get? (Store.set st k v) n).isSome) :
    (Store.get? st n).isSome ∨ k = n := by
  by_cases hk : k = n
  · exact Or.inr hk
  · rw [Store.get?_set_ne _ _ _ _ hk] at h
    exact Or.inl h

/-- Keys reachable by a dict-building fold: a binding in the result comes
from the initial dict or from the key contributed by some list element. -/
theorem foldl_get?_isSome {β : Type _}
    (step : List (String × ExtractedValue) → β → List (String × ExtractedValue))
    (keyOf : β → String)
    (hstep : ∀ acc b n, (Store.get? (step acc b) n).isSome →
      (Store.get? acc n).isSome ∨ keyOf b = n) :
    ∀ (l : List β) (acc : List (String × ExtractedValue)) (n : String),
      (Store.get? (l.foldl step acc) n).isSome →
      (Store.get? acc n).isSome ∨ ∃ b ∈ l, keyOf b = n := by
  intro l
  induction l with
  | nil => intro acc n h; exact Or.inl h
  | cons b bs ih =>
    intro acc n h
    rcases ih (step acc b) n h with h' | ⟨b', hb', hk⟩
    · rcases hstep acc b n h' with h'' | hk
      · exact Or.inl h''
      · exact Or.inr ⟨b, List.mem_cons_self b bs, hk⟩
    · exact Or.inr ⟨b', List.mem_cons_of_mem _ hb', hk⟩

/-- Every key of `_extract_information_from_conversation`'s result is either
the role of a party field or a field-discovery category name. -/
theorem extractInformation_keys (xenv : ExtractEnv) (t : String) (schema : Schema)
    (n : String)
    (h : (Store.get? (extractInformation xenv t schema) n).isSome) :
    (∃ pf ∈ (Store.get? schema.field_discovery "parties").getD [], pf.role.getD "" = n)
    ∨ (∃ cf ∈ schema.field_discovery, cf.1 = n) := by
  unfold extractInformation at h
  have houter := foldl_get?_isSome _ (fun cf : String × List DSField => cf.1) ?hstep
    schema.field_discovery _ n h
  case hstep =>
    intro acc cf m hm
    by_cases hp : cf.1 ≠ "parties"
    · rw [if_pos hp] at hm
      have hinner := foldl_get?_isSome _ (fun _ : DSField => cf.1) ?istep cf.2 acc m hm
      case istep =>
        intro acc' f m' hm'
        by_cases hre : xenv.reMatches f.pattern t
        · rw [if_pos hre] at hm'
          cases hval : xenv.extractFieldValue t f.pattern f.field_type with
          | none => rw [hval] at hm'; exact Or.inl hm'
          | some v =>
            rw [hval] at hm'
            dsimp only at hm'
            by_cases hv : v ≠ ""
            · rw [if_pos hv] at hm'
              rcases Store.get?_set_isSome _ _ _ _ hm' with h1 | h1
              · exact Or.inl h1
              · exact Or.inr h1
            · rw [if_neg hv] at hm'
              exact Or.inl hm'
        · rw [if_neg hre] at hm'
          exact Or.inl hm'
      rcases hinner with h1 | ⟨_, _, h1⟩
      · exact Or.inl h1
      · exact Or.inr h1
    · rw [if_neg hp] at hm
      exact Or.inl hm
  rcases houter with h1 | ⟨cf, hcf, hk⟩
  · left
    cases hpar : Store.get? schema.field_discovery "parties" with
    | none =>
      rw [hpar] at h1
      simp [Store.get?] at h1
    | some party_fields =>
      rw [hpar] at h1
      have := foldl_get?_isSome _ (fun pf : DSField => pf.role.getD "") ?pstep
        party_fields [] n h1
      case pstep =>
        intro acc pf m hm
        by_cases hre : xenv.reMatches pf.pattern t
        · rw [if_pos hre] at hm
          by_cases hpi : xenv.extractPartyDetails t pf.pattern ≠ []
          · rw [if_pos hpi] at hm
            rcases Store.get?_set_isSome _ _ _ _ hm with h2 | h2
            · exact Or.inl h2
            · exact Or.inr h2
          · rw [if_neg hpi] at hm
            exact Or.inl hm
        · rw [if_neg hre] at hm
          exact Or.inl hm
      rcases this with h2 | h2
      · simp [Store.get?] at h2
      · simpa [hpar] using h2
  · exact Or.inr ⟨cf, hcf, hk⟩

/-- The shapes `_analyze_conversation_context` can produce for
`parties_involved` / `key_topics`. -/
theorem analyze_shapes (t : String) :
    ((analyzeConversationContext t).parties_involved = []
      ∧ (analyzeConversationContext t).key_topics = [])
    ∨ ((analyzeConversationContext t).parties_involved = ["employer", "employee"]
      ∧ (analyzeConversationContext t).key_topics
          = ["salary", "working hours", "benefits", "termination"])
    ∨ ((analyzeConversationContext t).parties_involved = ["landlord", "tenant"]
      ∧ (analyzeConversationContext t).key_topics
          = ["rent", "duration", "property details", "utilities"])
    ∨ ((analyzeConversationContext t).parties_involved = ["partner1", "partner2"]
      ∧ (analyzeConversationContext t).key_topics
          = ["capital", "profit sharing", "management", "dissolution"])
    ∨ ((analyzeConversationContext t).parties_involved = ["client", "service_provider"]
      ∧ (analyzeConversationContext t).key_topics
          = ["scope", "payment", "deliverables", "timeline"]) := by
  unfold analyzeConversationContext
  by_cases h1 : anyWordIn (pyLower t) ["employment", "employee", "employer", "job", "work"]
  · simp [h1]
  by_cases h2 : anyWordIn (pyLower t) ["lease", "rent", "tenant", "landlord", "property"]
  · simp [h1, h2]
  by_cases h3 : anyWordIn (pyLower t) ["partnership", "business", "company", "venture"]
  · simp [h1, h2, h3]
  by_cases h4 : anyWordIn (pyLower t) ["service", "consulting", "freelance", "contractor"]
  · simp [h1, h2, h3, h4]
  · simp [h1, h2, h3, h4]

/-- `_identify_missing_info` over one category equals filtering the
category's required field names on absence. -/
theorem missing_inner_eq (e : List (String × ExtractedValue)) (cat : String)
    (fields : List DSField) :
    (fields.flatMap (fun f =>
      if f.validation == some "required" then
        if (Store.get? e (cat ++ "_" ++ f.role.getD "value")).isNone then
          [cat ++ "_" ++ f.role.getD "value"]
        else []
      else []))
    = ((fields.filter (fun f => f.validation == some "required")).map
        (fun f => cat ++ "_" ++ f.role.getD "value")).filter
        (fun n => (Store.get? e n).isNone) := by
  induction fields with
  | nil => rfl
  | cons f fs ih =>
    by_cases hreq : f.validation = some "required"
    · by_cases habs : Store.get? e (cat ++ "_" ++ f.role.getD "value") = none
      · simpa [hreq, habs] using ih
      · simpa [hreq, habs] using ih
    · simpa [hreq] using ih

/-- `_identify_missing_info` equals `_get_required_fields` filtered on
absence from `extracted_info`. -/
theorem identifyMissingInfo_eq_filter (schema : Schema)
    (e : List (String × ExtractedValue)) :
    identifyMissingInfo schema e
      = (getRequiredFields schema).filter (fun n => (Store.get? e n).isNone) := by
  unfold identifyMissingInfo getRequiredFields
  induction schema.field_discovery with
  | nil => rfl
  | cons cf cfs ih =>
    simp only [List.flatMap_cons, List.filter_append]
    dsimp only at ih ⊢
    rw [missing_inner_eq, ih]

/-- C7: schema inference is a deterministic pure function of the
conversation text. `create_dynamic_schema` (composed with
`_detect_document_type`) is embedded as a state-passing function over the
loader's mutable `self.schemas`; it neither reads nor writes that state, so
two calls on the same text — from any two loader states — return
structurally identical schemas, and the only candidate side-effect channel
(the loader state) is untouched. -/
theorem C7_schema_inference_pure (s1 s2 : List (String × Schema)) (t : String) :
    createDynamicSchema s1 (detectDocumentType t) t
      = createDynamicSchema s2 (detectDocumentType t) t := rfl

/-- C10: `Workflow.to_dict` emits no user-id key, `_dict_to_workflow`
defaults the user id to `""`, so serialization is not a round trip for
`user_id`, and `get_user_workflows` over any storage written through
`to_dict` returns the empty list for every requesting user. -/
theorem C10_workflow_user_id_not_roundtripped :
    (∀ w : Workflow, w.toDict.user_id = none)
    ∧ (∀ w : Workflow, (dictToWorkflow w.toDict).user_id = "")
    ∧ (∀ (entries : List (String × Workflow)) (uid : String),
        WorkflowService.get_user_workflows
          (entries.map (fun p => (p.1, p.2.toDict))) uid = []) := by
  refine ⟨fun w => rfl, fun w => rfl, fun entries uid => ?_⟩
  unfold WorkflowService.get_user_workflows Store.values
  rw [List.map_eq_nil_iff, List.filter_eq_nil_iff]
  intro r hr
  rw [List.map_map] at hr
  obtain ⟨p, _, rfl⟩ := List.mem_map.1 hr
  simp [Workflow.toDict]

/-- C8: `missing_info` equals exactly the required fields absent from
`extracted_info`; on the forms this generator produces, every required
field appears in `missing_info` at generation time (in particular every
required field with no prefilled value); and supplying exactly one missing
field (the schema unchanged, so no new required fields appear) shrinks the
missing set by exactly that one element. -/
theorem C8_missing_info_characterization
    (schema : Schema) (e : List (String × ExtractedValue))
    (fd : FormData) (f : String) (v : ExtractedValue)
    (xenv : ExtractEnv) (schemas : List (String × Schema)) (t : String)
    (hWF : fd.missing_info = identifyMissingInfo fd.schema fd.extracted_info)
    (hf : f ∈ fd.missing_info) :
    identifyMissingInfo schema e
        = (getRequiredFields schema).filter (fun n => (Store.get? e n).isNone)
    ∧ ((updateFormWithUserInput fd [(f, v)]).missing_info.toFinset
        = fd.missing_info.toFinset.erase f
      ∧ (updateFormWithUserInput fd [(f, v)]).missing_info.toFinset.card
        = fd.missing_info.toFinset.card - 1)
    ∧ (∀ n, n ∈ getRequiredFields (generateFormFromConversation xenv schemas t).schema →
        n ∈ (generateFormFromConversation xenv schemas t).missing_info) := by
  have hupd : (updateFormWithUserInput fd [(f, v)]).missing_info
      = (getRequiredFields fd.schema).filter
          (fun n => (Store.get? (Store.set fd.extracted_info f v) n).isNone) := by
    unfold updateFormWithUserInput
    dsimp only
    rw [identifyMissingInfo_eq_filter]
    rfl
  have hmem : ∀ x, x ∈ (updateFormWithUserInput fd [(f, v)]).missing_info
      ↔ (x ∈ fd.missing_info ∧ x ≠ f) := by
    intro x
    rw [hupd, hWF, identifyMissingInfo_eq_filter]
    simp only [List.mem_filter]
    constructor
    · rintro ⟨hreq, habs⟩
      by_cases hx : x = f
      · subst hx
        rw [Store.get?_set_self] at habs
        simp at habs
      · rw [Store.get?_set_ne _ _ _ _ (fun hh => hx hh.symm)] at habs
        exact ⟨⟨hreq, habs⟩, hx⟩
    · rintro ⟨⟨hreq, habs⟩, hx⟩
      refine ⟨hreq, ?_⟩
      rw [Store.get?_set_ne _ _ _ _ (fun hh => hx hh.symm)]
      exact habs
  have hfin : (updateFormWithUserInput fd [(f, v)]).missing_info.toFinset
      = fd.missing_info.toFinset.erase f := by
    ext x
    simp only [List.mem_toFinset, Finset.mem_erase, hmem]
    tauto
  refine ⟨identifyMissingInfo_eq_filter schema e,
    ⟨hfin, by rw [hfin, Finset.card_erase_of_mem (by simpa using hf)]⟩, ?_⟩
  intro n hn
  dsimp only [generateFormFromConversation] at hn ⊢
  rw [identifyMissingInfo_eq_filter, List.mem_filter]
  refine ⟨hn, ?_⟩
  by_contra hnone
  have hsome : (Store.get? (extractInformation xenv t
      (createDynamicSchema schemas (detectDocumentType t) t)) n).isSome := by
    cases hc : Store.get? (extractInformation xenv t
        (createDynamicSchema schemas (detectDocumentType t) t)) n with
    | none => exact absurd (by simp [hc]) hnone
    | some w => simp
  have hkeys := extractInformation_keys xenv t
    (createDynamicSchema schemas (detectDocumentType t) t) n hsome
  unfold createDynamicSchema at hn hkeys
  dsimp only at hn hkeys
  unfold getRequiredFields at hn
  dsimp only at hn
  unfold generateFieldDiscovery at hn hkeys
  rcases analyze_shapes t with ⟨hP, hT⟩ | ⟨hP, hT⟩ | ⟨hP, hT⟩ | ⟨hP, hT⟩ | ⟨hP, hT⟩ <;>
    rw [hP, hT] at hn hkeys <;>
    simp_all [Store.get?, partyField, salaryField, durationField]

/-- C8 witness: the characterization applied to a concrete employment-
conversation form, supplying its missing `salary_value` field. -/
theorem C8_missing_info_characterization_witness :
    identifyMissingInfo c8Form.schema c8Form.extracted_info
        = (getRequiredFields c8Form.schema).filter
            (fun n => (Store.get? c8Form.extracted_info n).isNone)
    ∧ ((updateFormWithUserInput c8Form [("salary_value", .str "50000")]).missing_info.toFinset
        = c8Form.missing_info.toFinset.erase "salary_value"
      ∧ (updateFormWithUserInput c8Form
            [("salary_value", .str "50000")]).missing_info.toFinset.card
        = c8Form.missing_info.toFinset.card - 1)
    ∧ (∀ n, n ∈ getRequiredFields
          (generateFormFromConversation trivialExtractEnv [] "employment contract").schema →
        n ∈ (generateFormFromConversation trivialExtractEnv [] "employment contract").missing_info) :=
  C8_missing_info_characterization c8Form.schema c8Form.extracted_info c8Form
    "salary_value" (.str "50000") trivialExtractEnv [] "employment contract"
    (by rfl) (by decide)

/-- C2 (amended): `current_version == len(versions)` holds in the stored
record and in its deserialization after every successful
`generate_draft_version`; a freshly created draft, however, starts with
`current_version = 1` and zero versions (status `in_progress`), so the
equality does not hold before the first generate. -/
theorem C2_amended_current_version (env : DraftEnv) (st : DraftStorage)
    (did uid fid : String) (ctx : Option GenContext) (now : Nat)
    (v : DraftVersion) (st' : DraftStorage)
    (h : DraftingService.generate_draft_version env st did uid ctx fid now = (some v, st')) :
    (∃ r', Store.get? st' did = some r'
      ∧ r'.currentVersion = r'.versions.length
      ∧ (dictToDraft r').current_version = (dictToDraft r').versions.length)
    ∧ (∀ (env2 : DraftEnv) (st2 : DraftStorage) (u c i : String)
        (dt : Option String) (n : Nat),
        (DraftingService.create_draft_from_chat env2 st2 u c dt i n).1.current_version = 1
        ∧ (DraftingService.create_draft_from_chat env2 st2 u c dt i n).1.versions = []
        ∧ (DraftingService.create_draft_from_chat env2 st2 u c dt i n).1.status = "in_progress") := by
  constructor
  · unfold DraftingService.generate_draft_version DraftingService.get_draft at h
    cases hg : Store.get? st did with
    | none => rw [hg] at h; simp at h
    | some r =>
      rw [hg] at h
      simp only [Option.map_some'] at h
      by_cases hu : (dictToDraft r).user_id ≠ uid
      · rw [if_pos hu] at h
        simp at h
      · rw [if_neg hu] at h
        rw [Prod.mk.injEq] at h
        obtain ⟨hv, hst⟩ := h
        refine ⟨_, hst ▸ Store.get?_set_self st did _, ?_, ?_⟩
        · simp [DocumentDraft.toDict]
        · simp [DocumentDraft.toDict, dictToDraft]
  · intro env2 st2 u c i dt n
    refine ⟨rfl, rfl, rfl⟩

/-- C2 counterexample: a freshly created draft, loaded back from storage,
has `current_version = 1` but zero versions, refuting the claim that the
equality holds immediately after load for a never-generated draft. -/
theorem C2_counterexample_fresh_draft :
    (DraftingService.get_draft c2Storage0 "d1").map
      (fun d => decide (d.current_version = d.versions.length)) = some false := by
  decide

/-- C2 witness: the amended theorem applied to a concrete one-draft store. -/
theorem C2_amended_current_version_witness :
    ∃ r', Store.get? c2GenResult.2 "d1" = some r'
      ∧ r'.currentVersion = r'.versions.length
      ∧ (dictToDraft r').current_version = (dictToDraft r').versions.length :=
  (C2_amended_current_version trivialDraftEnv c2Storage0 "d1" "alice" "v1" none 1
    (c2GenResult.1.getD (DraftVersion.init "" ⟨"", "", [], ⟨0, 0, [], "", []⟩⟩ "" 0))
    c2GenResult.2 (by decide)).1

/-- C1: for a draft owned by `user_id` containing the referenced version:
if that version is `pending`, `approve_draft_version` returns true, stores
the version as `approved` and the draft as `completed` (with approver,
approval time and feedback recorded), and `reject_draft_version`
symmetrically returns true, stores the version as `rejected` (with the
reason) and the draft as `in_progress`; if the version is not `pending`,
both return false and leave the stored state exactly unchanged. -/
theorem C1_approve_reject_pending_gate
    (st : DraftStorage) (did vid uid : String) (fb : Option String)
    (reason : String) (now : Nat) (r : DraftRecord) (w : VersionRecord)
    (hr : Store.get? st did = some r)
    (huser : r.userId = uid)
    (hw : r.versions.find? (fun x => x.id = vid) = some w) :
    (w.status = "pending" →
      DraftingService.approve_draft_version st did vid uid fb now
        = (true, Store.set st did
            { r with status := "completed", updatedAt := now
                     totalVersions := r.versions.length
                     originalContent := truthyContent r.originalContent
                     versions := updateFirst (fun x => x.id = vid)
                       (fun x => { x with status := "approved", approvedBy := some uid
                                          approvedAt := some now, userFeedback := fb })
                       r.versions })
      ∧ DraftingService.reject_draft_version st did vid uid reason fb now
        = (true, Store.set st did
            { r with status := "in_progress", updatedAt := now
                     totalVersions := r.versions.length
                     originalContent := truthyContent r.originalContent
                     versions := updateFirst (fun x => x.id = vid)
                       (fun x => { x with status := "rejected"
                                          rejectedReason := some reason
                                          userFeedback := fb })
                       r.versions }))
    ∧ (w.status ≠ "pending" →
      DraftingService.approve_draft_version st did vid uid fb now = (false, st)
      ∧ DraftingService.reject_draft_version st did vid uid reason fb now = (false, st)) := by
  have hw' : r.versions.find?
      ((fun v : DraftVersion => decide (v.id = vid)) ∘ dictToVersion) = some w := hw
  constructor
  · intro hpend
    constructor
    · unfold DraftingService.approve_draft_version DraftingService.get_draft
      rw [hr]
      simp only [Option.map_some']
      rw [if_neg (by simp [dictToDraft, huser])]
      dsimp only [dictToDraft]
      rw [List.find?_map, hw']
      dsimp only [Option.map_some']
      rw [if_neg (by simp [dictToVersion, hpend])]
      dsimp only [DocumentDraft.toDict]
      rw [updateFirst_map dictToVersion DraftVersion.toDict dictToVersion_toDict,
        updateFirst_length, List.length_map]
      rfl
    · unfold DraftingService.reject_draft_version DraftingService.get_draft
      rw [hr]
      simp only [Option.map_some']
      rw [if_neg (by simp [dictToDraft, huser])]
      dsimp only [dictToDraft]
      rw [List.find?_map, hw']
      dsimp only [Option.map_some']
      rw [if_neg (by simp [dictToVersion, hpend])]
      dsimp only [DocumentDraft.toDict]
      rw [updateFirst_map dictToVersion DraftVersion.toDict dictToVersion_toDict,
        updateFirst_length, List.length_map]
      rfl
  · intro hnp
    constructor
    · unfold DraftingService.approve_draft_version DraftingService.get_draft
      rw [hr]
      simp only [Option.map_some']
      rw [if_neg (by simp [dictToDraft, huser])]
      dsimp only [dictToDraft]
      rw [List.find?_map, hw']
      dsimp only [Option.map_some']
      rw [if_pos (by simp [dictToVersion]; exact hnp)]
    · unfold DraftingService.reject_draft_version DraftingService.get_draft
      rw [hr]
      simp only [Option.map_some']
      rw [if_neg (by simp [dictToDraft, huser])]
      dsimp only [dictToDraft]
      rw [List.find?_map, hw']
      dsimp only [Option.map_some']
      rw [if_pos (by simp [dictToVersion]; exact hnp)]

/-- C1 witness: the gate theorem applied to a concrete one-draft store whose
single version is pending. -/
theorem C1_approve_reject_pending_gate_witness :
    ((c1Version.toDict).status = "pending" →
      DraftingService.approve_draft_version c1Storage "d1" "v1" "alice" (some "ok") 9
        = (true, Store.set c1Storage "d1"
            { c1Draft.toDict with
              status := "completed"
              updatedAt := 9
              totalVersions := (c1Draft.toDict).versions.length
              originalContent := truthyContent (c1Draft.toDict).originalContent
              versions := updateFirst (fun x => x.id = "v1")
                (fun x => { x with
                  status := "approved"
                  approvedBy := some "alice"
                  approvedAt := some 9
                  userFeedback := some "ok" })
                (c1Draft.toDict).versions })
      ∧ DraftingService.reject_draft_version c1Storage "d1" "v1" "alice" "bad" (some "ok") 9
        = (true, Store.set c1Storage "d1"
            { c1Draft.toDict with
              status := "in_progress"
              updatedAt := 9
              totalVersions := (c1Draft.toDict).versions.length
              originalContent := truthyContent (c1Draft.toDict).originalContent
              versions := updateFirst (fun x => x.id = "v1")
                (fun x => { x with
                  status := "rejected"
                  rejectedReason := some "bad"
                  userFeedback := some "ok" })
                (c1Draft.toDict).versions }))
    ∧ ((c1Version.toDict).status ≠ "pending" →
      DraftingService.approve_draft_version c1Storage "d1" "v1" "alice" (some "ok") 9
        = (false, c1Storage)
      ∧ DraftingService.reject_draft_version c1Storage "d1" "v1" "alice" "bad" (some "ok") 9
        = (false, c1Storage)) :=
  C1_approve_reject_pending_gate c1Storage "d1" "v1" "alice" (some "ok") "bad" 9
    c1Draft.toDict c1Version.toDict (by decide) (by decide) (by decide)

/-- C9: `regenerate_draft_version` on a draft owned by `user_id` with a
referenced existing version appends exactly one new `pending` version built
from a generation context carrying the previous version's content, the
supplied feedback, the prior rejection reason and the prior modifications —
and the stored copies of all existing versions (the referenced one included)
are unchanged. -/
theorem C9_regenerate_frame (env : DraftEnv) (st : DraftStorage)
    (did vid uid fid : String) (fb : Option String) (now : Nat)
    (r : DraftRecord) (w : VersionRecord)
    (hr : Store.get? st did = some r)
    (huser : r.userId = uid)
    (hw : r.versions.find? (fun x => x.id = vid) = some w) :
    ∃ nv st', DraftingService.regenerate_draft_version env st did vid uid fb fid now
        = (some nv, st')
      ∧ nv.status = "pending"
      ∧ nv.id = fid
      ∧ nv.created_by = uid
      ∧ nv.content = DraftingService.generateDraftContent env
          (DraftingService.draftChatMessages env uid (dictToDraft r)) r.documentType
          (some ⟨some w.content, fb, w.rejectedReason, w.modifications⟩) now
      ∧ ∃ r', st' = Store.set st did r'
          ∧ r'.versions = r.versions ++ [nv.toDict]
          ∧ r'.currentVersion = r.versions.length + 1 := by
  have hw' : r.versions.find?
      ((fun v : DraftVersion => decide (v.id = vid)) ∘ dictToVersion) = some w := hw
  refine ⟨DraftVersion.init fid
      (DraftingService.generateDraftContent env
        (DraftingService.draftChatMessages env uid (dictToDraft r)) r.documentType
        (some ⟨some w.content, fb, w.rejectedReason, w.modifications⟩) now) uid now,
    Store.set st did
      ({ dictToDraft r with
          versions := (r.versions.map dictToVersion)
            ++ [DraftVersion.init fid
                  (DraftingService.generateDraftContent env
                    (DraftingService.draftChatMessages env uid (dictToDraft r)) r.documentType
                    (some ⟨some w.content, fb, w.rejectedReason, w.modifications⟩) now) uid now]
          current_version := ((r.versions.map dictToVersion)
            ++ [DraftVersion.init fid
                  (DraftingService.generateDraftContent env
                    (DraftingService.draftChatMessages env uid (dictToDraft r)) r.documentType
                    (some ⟨some w.content, fb, w.rejectedReason, w.modifications⟩) now) uid now]).length
          updated_at := now } : DocumentDraft).toDict,
    ?_, rfl, rfl, rfl, rfl, _, rfl, ?_, ?_⟩
  · unfold DraftingService.regenerate_draft_version DraftingService.generate_draft_version
      DraftingService.get_draft
    rw [hr]
    simp only [Option.map_some']
    rw [if_neg (by simp [dictToDraft, huser])]
    dsimp only [dictToDraft]
    rw [List.find?_map, hw']
    rw [if_neg (by simp [dictToDraft, huser])]
    rfl
  · dsimp only [DocumentDraft.toDict]
    rw [List.map_append, versions_roundtrip]
    rfl
  · dsimp only [DocumentDraft.toDict]
    simp

/-- C9 witness: the frame theorem applied to the concrete one-draft store. -/
theorem C9_regenerate_frame_witness :
    ∃ nv st', DraftingService.regenerate_draft_version trivialDraftEnv c1Storage
        "d1" "v1" "alice" (some "redo") "v2" 9 = (some nv, st')
      ∧ nv.status = "pending"
      ∧ nv.id = "v2"
      ∧ nv.created_by = "alice"
      ∧ nv.content = DraftingService.generateDraftContent trivialDraftEnv
          (DraftingService.draftChatMessages trivialDraftEnv "alice" (dictToDraft c1Draft.toDict))
          (c1Draft.toDict).documentType
          (some ⟨some (c1Version.toDict).content, some "redo",
            (c1Version.toDict).rejectedReason, (c1Version.toDict).modifications⟩) 9
      ∧ ∃ r', st' = Store.set c1Storage "d1" r'
          ∧ r'.versions = (c1Draft.toDict).versions ++ [nv.toDict]
          ∧ r'.currentVersion = (c1Draft.toDict).versions.length + 1 :=
  C9_regenerate_frame trivialDraftEnv c1Storage "d1" "v1" "alice" "v2" (some "redo") 9
    c1Draft.toDict c1Version.toDict (by decide) (by decide) (by decide)

/-- C5 (amended): on a `[A, B, C]` workflow with step `B` running,
`control(..., "stop")` makes `B` `error` with message "Workflow stopped by
user" (which contains "stopped by user"), the workflow `error`, and leaves
`C` `pending`; however `error` is not terminal for `control` — the action
dispatch never inspects the current status, so a subsequent `"start"` on the
stored workflow returns it to `running`. -/
theorem C5_amended_stop_behavior (st : WfStorage) (wid : String) (now : Nat)
    (r : WorkflowRecord) (A B Cc : StepRecord)
    (hr : Store.get? st wid = some r)
    (hid : r.id = wid)
    (hsteps : r.steps = [A, B, Cc])
    (hcur : r.currentStep = 1)
    (hC : Cc.status = "pending") :
    ∃ wf', WorkflowService.control_workflow st wid "stop" now
        = (some wf', Store.set st wid wf'.toDict)
      ∧ wf'.status = "error"
      ∧ (wf'.steps[1]?).map (fun s => (s.status, s.error))
          = some ("error", some "Workflow stopped by user")
      ∧ containsSubstr "Workflow stopped by user" "stopped by user" = true
      ∧ (wf'.steps[2]?).map (·.status) = some "pending"
      ∧ (∀ now2 : Nat,
          ((WorkflowService.control_workflow (Store.set st wid wf'.toDict) wid "start" now2).1).map
              (·.status) = some "running") := by
  obtain ⟨rid, rname, rdesc, ruid, rstatus, rcur, rtot, rsteps, rca, rua, red, rdid⟩ := r
  simp only at hid hsteps hcur hC
  subst hid hsteps hcur
  refine ⟨{ id := rid, name := rname, description := rdesc, user_id := ruid.getD ""
            status := "error", current_step := 1
            steps := [dictToStep A,
              { dictToStep B with status := "error", error := some "Workflow stopped by user" },
              dictToStep Cc]
            created_at := rca, updated_at := now, estimated_duration := red
            chat_id := none, draft_id := rdid }, ?_, rfl, by simp [dictToStep], by decide,
            by simp [dictToStep, hC], ?_⟩
  · unfold WorkflowService.control_workflow WorkflowService.get_workflow
    rw [hr]
    simp [WorkflowService.stopWorkflow, dictToWorkflow, updateIdx]
  · intro now2
    unfold WorkflowService.control_workflow WorkflowService.get_workflow
    rw [Store.get?_set_self]
    simp [WorkflowService.startWorkflow, dictToWorkflow, Workflow.toDict, updateIdx]

/-- C5 counterexample: from the `error` state that `stop` produces, a
further `control(..., "start")` transition IS defined and returns the
workflow to `running`, refuting "no further control transition is defined
out of 'error'". -/
theorem C5_counterexample_error_not_terminal :
    ((WorkflowService.control_workflow c5Storage "w1" "stop" 5).1).map (·.status) = some "error"
    ∧ ((WorkflowService.control_workflow
          (WorkflowService.control_workflow c5Storage "w1" "stop" 5).2 "w1" "start" 6).1).map
        (·.status) = some "running" := by
  decide

/-- C5 witness: the amended theorem applied to the concrete `[A, B, C]`
workflow store. -/
theorem C5_amended_stop_behavior_witness :
    ∃ wf', WorkflowService.control_workflow c5Storage "w1" "stop" 5
        = (some wf', Store.set c5Storage "w1" wf'.toDict)
      ∧ wf'.status = "error"
      ∧ (wf'.steps[1]?).map (fun s => (s.status, s.error))
          = some ("error", some "Workflow stopped by user")
      ∧ containsSubstr "Workflow stopped by user" "stopped by user" = true
      ∧ (wf'.steps[2]?).map (·.status) = some "pending"
      ∧ (∀ now2 : Nat,
          ((WorkflowService.control_workflow (Store.set c5Storage "w1" wf'.toDict) "w1" "start"
              now2).1).map (·.status) = some "running") :=
  C5_amended_stop_behavior c5Storage "w1" 5 c5Workflow.toDict c5A c5B c5C
    (by decide) (by decide) (by decide) (by decide) (by decide)

/-- C3 (amended): the user-scoped drafting operations do enforce ownership
isolation — on a stored draft belonging to a different user each returns its
not-found result and leaves storage unchanged. (The service-level
`get_draft`, `get_workflow` and the workflow `control`/`approve_step`/
`modify_step`/`export` operations, by contrast, take no `user_id` at all
and perform no ownership check; see the counterexample.) -/
theorem C3_amended_draft_ownership (env : DraftEnv) (st : DraftStorage)
    (did vid vid2 uid : String) (fb : Option String) (reason fid fmt : String)
    (mods : List (String × String)) (ctx : Option GenContext) (now : Nat)
    (r : DraftRecord)
    (hr : Store.get? st did = some r)
    (hne : r.userId ≠ uid) :
    DraftingService.generate_draft_version env st did uid ctx fid now = (none, st)
    ∧ DraftingService.approve_draft_version st did vid uid fb now = (false, st)
    ∧ DraftingService.reject_draft_version st did vid uid reason fb now = (false, st)
    ∧ DraftingService.modify_draft_version st did vid uid mods now = (false, st)
    ∧ DraftingService.regenerate_draft_version env st did vid uid fb fid now = (none, st)
    ∧ DraftingService.delete_draft st did uid = (false, st)
    ∧ DraftingService.export_draft st did uid fmt now = none
    ∧ DraftingService.get_draft_comparison st did vid vid2 uid = none := by
  have hu : (dictToDraft r).user_id ≠ uid := by simpa [dictToDraft] using hne
  refine ⟨?_, ?_, ?_, ?_, ?_, ?_, ?_, ?_⟩ <;>
    · first
      | (unfold DraftingService.generate_draft_version DraftingService.get_draft
         rw [hr]; simp only [Option.map_some']; rw [if_pos hu])
      | (unfold DraftingService.approve_draft_version DraftingService.get_draft
         rw [hr]; simp only [Option.map_some']; rw [if_pos hu])
      | (unfold DraftingService.reject_draft_version DraftingService.get_draft
         rw [hr]; simp only [Option.map_some']; rw [if_pos hu])
      | (unfold DraftingService.modify_draft_version DraftingService.get_draft
         rw [hr]; simp only [Option.map_some']; rw [if_pos hu])
      | (unfold DraftingService.regenerate_draft_version DraftingService.get_draft
         rw [hr]; simp only [Option.map_some']; rw [if_pos hu])
      | (unfold DraftingService.delete_draft DraftingService.get_draft
         rw [hr]; simp only [Option.map_some']; rw [if_pos hu])
      | (unfold DraftingService.export_draft DraftingService.get_draft
         rw [hr]; simp only [Option.map_some']; rw [if_pos hu])
      | (unfold DraftingService.get_draft_comparison DraftingService.get_draft
         rw [hr]; simp only [Option.map_some']; rw [if_pos hu])

/-- C3 counterexample: the claim fails for the workflow/`get_draft` side.
The stored draft `d1` is owned by `"alice"`, yet `get_draft` (which takes no
requesting user at the service layer) returns it — so for any other user the
result is the same non-not-found draft; likewise `control_workflow` and
`approve_step` mutate and return another user's workflow. -/
theorem C3_counterexample_workflow_ops_unchecked :
    (Store.get? c1Storage "d1").map (·.userId) = some "alice"
    ∧ DraftingService.get_draft c1Storage "d1" ≠ none
    ∧ (WorkflowService.control_workflow c5Storage "w1" "stop" 5).1 ≠ none
    ∧ (WorkflowService.control_workflow c5Storage "w1" "stop" 5).2 ≠ c5Storage
    ∧ (WorkflowService.approve_step c5Storage "w1" "s1" 5).1 ≠ none
    ∧ (WorkflowService.approve_step c5Storage "w1" "s1" 5).2 ≠ c5Storage := by
  decide

/-- C3 witness: the amended theorem applied with requesting user `"bob"`
against the store holding `"alice"`'s draft. -/
theorem C3_amended_draft_ownership_witness :
    DraftingService.generate_draft_version trivialDraftEnv c1Storage "d1" "bob" none "v9" 3
        = (none, c1Storage)
    ∧ DraftingService.approve_draft_version c1Storage "d1" "v1" "bob" none 3 = (false, c1Storage)
    ∧ DraftingService.reject_draft_version c1Storage "d1" "v1" "bob" "no" none 3
        = (false, c1Storage)
    ∧ DraftingService.modify_draft_version c1Storage "d1" "v1" "bob" [] 3 = (false, c1Storage)
    ∧ DraftingService.regenerate_draft_version trivialDraftEnv c1Storage "d1" "v1" "bob" none
        "v9" 3 = (none, c1Storage)
    ∧ DraftingService.delete_draft c1Storage "d1" "bob" = (false, c1Storage)
    ∧ DraftingService.export_draft c1Storage "d1" "bob" "json" 3 = none
    ∧ DraftingService.get_draft_comparison c1Storage "d1" "v1" "v1" "bob" = none :=
  C3_amended_draft_ownership trivialDraftEnv c1Storage "d1" "v1" "v1" "bob" none "no" "v9"
    "json" [] none 3 c1Draft.toDict (by decide) (by decide)

/-- C4 (amended): the sequential `_execute_workflow` loop of a running
workflow visits step indices `0..N-1` exactly once each, strictly in order
(the visit trace is `List.range N`); `approve_step` acts on any step whose
status is `completed` — the `can_approve` flag is NOT consulted — clears
that step's gate, advances `current_step` by one when more steps remain,
and marks the next step `running` with a fresh start time. -/
theorem C4_amended_step_sequencing
    (env : WfEnv) (times : Nat → Nat × Nat) (wf : Workflow) (stw : WfStorage) (tEnd : Nat)
    (hrun : wf.status = "running")
    (st : WfStorage) (wid sid : String) (now : Nat) (r : WorkflowRecord) (j : Nat)
    (hr : Store.get? st wid = some r)
    (hjid : (r.steps[j]?).map (·.id) = some sid)
    (hfirst : ∀ k, k < j → (r.steps[k]?).map (·.id) ≠ some sid)
    (hcomp : (r.steps[j]?).map (·.status) = some "completed")
    (hmore : r.currentStep < r.steps.length - 1)
    (hne : j ≠ r.currentStep + 1) :
    (WorkflowService.executeWorkflow env times wf stw tEnd).2.2 = List.range wf.steps.length
    ∧ ∃ wf', WorkflowService.approve_step st wid sid now
          = (some wf', Store.set st wid wf'.toDict)
      ∧ wf'.current_step = r.currentStep + 1
      ∧ (wf'.steps[j]?).map (·.can_approve) = some false
      ∧ (wf'.steps[r.currentStep + 1]?).map (fun t => (t.status, t.start_time))
          = some ("running", some now) := by
  constructor
  · unfold WorkflowService.executeWorkflow
    rcases hex : WorkflowService.executeWorkflowSteps env times wf.steps.length 0 wf stw []
      with ⟨wf1, st1, tr⟩
    have htr := executeWorkflowSteps_trace env times wf.steps.length 0 wf stw [] hrun
    rw [hex] at htr
    dsimp only at htr ⊢
    by_cases hend : wf1.status = "running" <;>
      simp [hend, htr, List.range_eq_range']
  · obtain ⟨B, hB, hBid⟩ := Option.map_eq_some'.1 hjid
    have hBstat : B.status = "completed" := by
      rw [hB] at hcomp
      simpa using hcomp
    have hjm : ∀ k, k < j → ∀ x, (r.steps.map dictToStep)[k]? = some x →
        (decide (x.id = sid)) = false := by
      intro k hk x hx
      rw [List.getElem?_map] at hx
      obtain ⟨y, hy, rfl⟩ := Option.map_eq_some'.1 hx
      have h1 := hfirst k hk
      rw [hy] at h1
      simp only [Option.map_some', ne_eq, Option.some.injEq] at h1
      simpa [dictToStep] using h1
    have hjp : ∀ x, (r.steps.map dictToStep)[j]? = some x → (decide (x.id = sid)) = true := by
      intro x hx
      rw [List.getElem?_map, hB] at hx
      simp only [Option.map_some', Option.some.injEq] at hx
      subst hx
      simpa [dictToStep] using hBid
    have hfind : (r.steps.map dictToStep).find? (fun s => s.id = sid) = some (dictToStep B) := by
      rcases find?_eq_getElem_of_first (fun s : WorkflowStep => decide (s.id = sid))
          (r.steps.map dictToStep) j hjm hjp with hcase | hcase
      · rw [hcase, List.getElem?_map, hB]
        rfl
      · rw [List.getElem?_map, hB] at hcase
        simp at hcase
    have hup := updateFirst_getElem (fun s : WorkflowStep => decide (s.id = sid))
      (fun s => { s with can_approve := false }) (r.steps.map dictToStep) j hjm hjp
    have hlen2 : r.currentStep + 1 < r.steps.length := by omega
    obtain ⟨Cnext, hCnext⟩ : ∃ c, r.steps[r.currentStep + 1]? = some c := by
      rw [List.getElem?_eq_getElem hlen2]
      exact ⟨_, rfl⟩
    refine ⟨{ id := r.id, name := r.name, description := r.description,
              user_id := r.user_id.getD "", status := r.status,
              current_step := r.currentStep + 1,
              steps := updateIdx (updateFirst (fun s => s.id = sid)
                  (fun s => { s with can_approve := false }) (r.steps.map dictToStep))
                (r.currentStep + 1)
                (fun s => { s with status := "running", start_time := some now }),
              created_at := r.createdAt, updated_at := now,
              estimated_duration := r.estimatedDuration,
              chat_id := none, draft_id := r.draftId }, ?_, rfl, ?_, ?_⟩
    · unfold WorkflowService.approve_step WorkflowService.get_workflow
      rw [hr]
      simp only [Option.map_some']
      dsimp only [dictToWorkflow]
      rw [hfind]
      dsimp only
      rw [if_pos (show (dictToStep B).status = "completed" from hBstat)]
      rw [if_pos (show r.currentStep <
        (updateFirst (fun s => decide (s.id = sid))
          (fun s => { s with can_approve := false }) (r.steps.map dictToStep)).length - 1 by
        rw [updateFirst_length, List.length_map]; exact hmore)]
    · rw [updateIdx_getElem_ne _ _ _ _ hne]
      rw [hup j]
      rw [if_pos rfl, List.getElem?_map, hB]
      rfl
    · rw [updateIdx_getElem_self]
      rw [hup (r.currentStep + 1)]
      rw [if_neg (by omega), List.getElem?_map, hCnext]
      rfl

/-- C4 counterexample: `approve_step` acts on a completed step whose
`can_approve` flag is false — it still clears nothing, advances
`current_step` and starts the next step — refuting "approve_step acts only
on a 'completed' step with can_approve = true". -/
theorem C4_counterexample_can_approve_ignored :
    (c4Workflow.steps[0]?).map (·.can_approve) = some false
    ∧ ((WorkflowService.approve_step c4Storage "w1" "s1" 7).1).map
        (fun w => (w.current_step, (w.steps[1]?).map (·.status)))
      = some (1, some "running")
    ∧ (WorkflowService.approve_step c4Storage "w1" "s1" 7).2 ≠ c4Storage := by
  refine ⟨by decide, by decide, by decide⟩

/-- C4 witness: the amended theorem applied to the sample running workflow
and to approving its completed first step. -/
theorem C4_amended_step_sequencing_witness :
    (WorkflowService.executeWorkflow trivialWfEnv (fun _ => (0, 1)) c5Workflow [] 9).2.2
        = List.range c5Workflow.steps.length
    ∧ ∃ wf', WorkflowService.approve_step c5Storage "w1" "s1" 7
          = (some wf', Store.set c5Storage "w1" wf'.toDict)
      ∧ wf'.current_step = (c5Workflow.toDict).currentStep + 1
      ∧ (wf'.steps[0]?).map (·.can_approve) = some false
      ∧ (wf'.steps[(c5Workflow.toDict).currentStep + 1]?).map
            (fun t => (t.status, t.start_time)) = some ("running", some 7) :=
  C4_amended_step_sequencing trivialWfEnv (fun _ => (0, 1)) c5Workflow [] 9 (by decide)
    c5Storage "w1" "s1" 7 c5Workflow.toDict 0 (by decide) (by decide)
    (fun k hk => absurd hk (Nat.not_lt_zero k)) (by decide) (by decide) (by decide)

/-- C6 (amended): a step that executes without exception ends `completed`
with `progress = 100`, `start_time`/`end_time` stamped, `duration` computed
from the two timestamps, `can_modify` set exactly for the drafting-type
handler — and `can_approve` set by every handler EXCEPT the `review`
handler, which leaves the flag as it was (false for a fresh step). -/
theorem C6_amended_step_completion (env : WfEnv) (st : WfStorage) (wf : Workflow)
    (i t0 t1 : Nat) (s : WorkflowStep)
    (hs : wf.steps[i]? = some s)
    (happ : s.can_approve = false)
    (hmod : s.can_modify = false) :
    ∃ s', ((WorkflowService.executeWorkflowStep env st wf i t0 t1).1).steps[i]? = some s'
      ∧ s'.status = "completed"
      ∧ s'.progress = 100
      ∧ s'.start_time = some t0
      ∧ s'.end_time = some t1
      ∧ s'.duration = some (t1 - t0)
      ∧ s'.can_approve = !(pyLower s.name == "review")
      ∧ s'.can_modify = (pyLower s.name == "drafting") := by
  unfold WorkflowService.executeWorkflowStep
  rw [hs]
  simp only [updateIdx_getElem_self, hs, Option.map_some']
  refine ⟨_, rfl, ?_⟩
  by_cases h1 : pyLower s.name = "research"
  · simp [h1, WorkflowService.executeResearchStep, hmod]
  by_cases h2 : pyLower s.name = "extraction"
  · simp [h1, h2, WorkflowService.executeExtractionStep, hmod]
  by_cases h3 : pyLower s.name = "drafting"
  · simp [h1, h2, h3, WorkflowService.executeDraftingStep]
  by_cases h4 : pyLower s.name = "validation"
  · simp [h1, h2, h3, h4, WorkflowService.executeValidationStep, hmod]
  by_cases h5 : pyLower s.name = "review"
  · simp [h1, h2, h3, h4, h5, WorkflowService.executeReviewStep, happ, hmod]
  · simp [h1, h2, h3, h4, h5, WorkflowService.executeDynamicStep, hmod]

/-- C6 counterexample: the `review` handler completes the step but leaves
`can_approve = false`, refuting "can_approve = true for every handler,
including the review handler". -/
theorem C6_counterexample_review_step :
    ((WorkflowService.executeWorkflowStep trivialWfEnv [] c6ReviewWorkflow 0 3 4).1.steps[0]?).map
      (fun s => (s.status, s.can_approve)) = some ("completed", false) := by
  decide

/-- C6 witness: the amended theorem applied to the concrete drafting step of
the sample workflow. -/
theorem C6_amended_step_completion_witness :
    ∃ s', ((WorkflowService.executeWorkflowStep trivialWfEnv [] c5Workflow 2 3 4).1).steps[2]?
        = some s'
      ∧ s'.status = "completed"
      ∧ s'.progress = 100
      ∧ s'.start_time = some 3
      ∧ s'.end_time = some 4
      ∧ s'.duration = some (4 - 3)
      ∧ s'.can_approve = !(pyLower (WorkflowStep.init "s3" "Drafting" "Document drafting").name == "review")
      ∧ s'.can_modify = (pyLower (WorkflowStep.init "s3" "Drafting" "Document drafting").name == "drafting") :=
  C6_amended_step_completion trivialWfEnv [] c5Workflow 2 3 4
    (WorkflowStep.init "s3" "Drafting" "Document drafting") (by decide) (by decide) (by decide)

end Wakili
